import Mathlib

/-!
# nginx reverse proxy conf generator: `main.c`

A shallow embedding of `src/main.c` and the properties proved about it.

Modelling conventions.

* Standard input is a finite list of characters (`Stdin`); each stands for one
  byte of the stream.  `char` is signed (the platform the `c != EOF` test of
  `GetLine` is written for), so the byte 255 read into a `char` has the value
  of `EOF` (`EOFchar`).  `getchar` at the end of the stream returns `EOF`,
  every time it is called.
* Standard output is the list of characters written so far.
* `exit` is an outcome of its own (`Run.exit`); a loop that can spin for ever
  is run with fuel, and running out of fuel is the outcome `Run.hang`.
* A `char` buffer is the list of the cells written so far, from index 0 on;
  the C string it holds is the part before the first NUL (`cstr`), which is
  what `strcpy` copies and `%s` prints.
* The `int` counters `len` and `numOverflow` count characters of the input
  and are kept as natural numbers.  The value `scanf("%d")` converts is stored
  in the 32-bit `int port` the way the C library does it: converted as by
  `strtol` into a 64-bit `long`, which saturates, then cut to its low 32 bits
  (`storeInt`).
-/

namespace NginxConf

set_option maxRecDepth 100000

/-! ## Constants of `main.c` -/

/-- Macro `RED`. -/
def RED : List Char := "\x1B[31m".toList
/-- Macro `GRN`. -/
def GRN : List Char := "\x1B[32m".toList
/-- Macro `RESET`. -/
def RESET : List Char := "\x1B[0m".toList

/-- Macro `NUM_CHAR`. -/
def NUM_CHAR : Nat := 100
/-- Macro `NUM_PORT`. -/
def NUM_PORT : Int := 65536

/-- Macro `ERR_OVERFLOW`. -/
def ERR_OVERFLOW : List Char := "overflow".toList
/-- Macro `ERR_NO_FQDN`. -/
def ERR_NO_FQDN : List Char := "no FQDN input".toList
/-- Macro `ERR_NO_PORT`. -/
def ERR_NO_PORT : List Char := "no port input".toList

/-- Macro `SRC`. -/
def SRC : List Char := "source".toList
/-- Macro `DEST`. -/
def DEST : List Char := "destination".toList

/-- Modelled from the spec: `EXIT_FAILURE` of `stdlib.h`, which is not in the
repository; the spec only says the status is non-zero, 1 is its POSIX value. -/
def EXIT_FAILURE : Int := 1

/-! ## The world: standard input and standard output -/

/-- Characters of standard input not read yet. -/
abbrev Stdin := List Char

/-- State of the two standard streams. -/
structure World where
  stdin : Stdin
  stdout : List Char
  deriving DecidableEq

/-- Outcome of running a piece of the program. -/
inductive Run (α : Type) where
  /-- the function returned normally -/
  | ret : α → World → Run α
  /-- the function called `exit` with this status -/
  | exit : Int → World → Run α
  /-- the fuel ran out inside a loop -/
  | hang : Run α
  deriving DecidableEq

/-- Writing text to standard output (`printf` after formatting). -/
def World.print (w : World) (s : List Char) : World :=
  { w with stdout := w.stdout ++ s }

/-- Conversion `%d` of `printf`: decimal digits, with a minus sign when negative. -/
def fmtd (n : Int) : List Char :=
  if n < 0 then '-' :: Nat.toDigits 10 n.natAbs else Nat.toDigits 10 n.toNat

/-- The C string held in a buffer: the characters before the first NUL
(what `strcpy` copies and what `%s` prints). -/
def cstr (buf : List Char) : List Char :=
  buf.takeWhile (fun c => c != Char.ofNat 0)

/-- Type `Site_t`: `fqdn` is the C string held in the array `fqdn[NUM_CHAR]`. -/
structure Site_t where
  fqdn : List Char
  fqdnLen : Nat
  port : Int
  deriving DecidableEq

/-! ## Diagnostics -/

/-- Function `PrintNewline`. -/
def PrintNewline (w : World) : World :=
  w.print "\n".toList

/-- Function `PrintWarning`. -/
def PrintWarning (funcName errType : List Char) (w : World) : World :=
  w.print (RED ++ "Warning! Error: ".toList ++ errType ++ " in function ".toList
    ++ funcName ++ "\n".toList ++ RESET)

/-- Function `PrintOverflow`. -/
def PrintOverflow (funcName : List Char) (num : Int) (w : World) : World :=
  if num > 0 then
    (PrintWarning funcName ERR_OVERFLOW w).print
      (RED ++ "Number of overflows: ".toList ++ fmtd num ++ "\n".toList ++ RESET)
  else w

/-! ## Line Reader -/

/-- Function `isalpha` of `ctype.h` in the C locale. -/
def isalpha (c : Char) : Bool :=
  (65 ≤ c.toNat && c.toNat ≤ 90) || (97 ≤ c.toNat && c.toNat ≤ 122)

/-- Function `IsNewlineOrReturn`. -/
def IsNewlineOrReturn (c : Char) : Bool :=
  if c = '\n' ∨ c = '\r' then true else false

/-- Value a `char` takes when `EOF` is assigned to it. -/
def EOFchar : Char := Char.ofNat 255

/-- The first loop of `GetLine`, `while (((c = getchar()) != EOF) && !isalpha(c))`:
the value of `c` when the loop is left (`none` when it equals `EOF`) and the input that
remains.  `c` is a `char`: the loop is left with `c == EOF` at the end of the stream and
also when the byte 255 is read. -/
def skipToAlpha : Stdin → Option Char × Stdin
  | [] => (none, [])
  | c :: rest =>
    if c = EOFchar then (none, rest)
    else if isalpha c then (some c, rest)
    else skipToAlpha rest

/-- The second loop of `GetLine`, `while (!IsNewlineOrReturn(c = getchar()))`, with the
cells of `line` written so far, `len` and `numOverflow`; one unit of fuel per test of the
loop condition.  At the end of the stream `getchar` gives `EOF`, which is no line
terminator, so the body runs. -/
def accumulate (maxLen : Nat) :
    Nat → Stdin → List Char → Nat → Nat → Option (List Char × Nat × Nat × Stdin)
  | 0, _, _, _, _ => none
  | fuel + 1, stdin, line, len, numOverflow =>
    let c := stdin.headD EOFchar
    let rest := stdin.tail
    if IsNewlineOrReturn c then some (line, len, numOverflow, rest)
    else if len < maxLen - 1 then accumulate maxLen fuel rest (line ++ [c]) (len + 1) numOverflow
    else accumulate maxLen fuel rest line len (numOverflow + 1)

/-- Function `GetLine`: the cells of `line` it wrote (terminator included) and the
length it returns. -/
def GetLine (fuel : Nat) (maxLen : Nat) (w : World) : Run (List Char × Nat) :=
  match skipToAlpha w.stdin with
  | (none, rest) => .ret ([], 0) { w with stdin := rest }
  | (some c, rest) =>
    match accumulate maxLen fuel rest [c] 1 0 with
    | none => .hang
    | some (line, len, numOverflow, rest') =>
      let w' := PrintOverflow "GetLine".toList numOverflow { w with stdin := rest' }
      .ret (line ++ [Char.ofNat 0], len) w'

/-- Function `isspace` of `ctype.h` in the C locale. -/
def isspace (c : Char) : Bool :=
  c.toNat = 32 || (9 ≤ c.toNat && c.toNat ≤ 13)

/-- Function `isdigit` of `ctype.h`. -/
def isdigit (c : Char) : Bool :=
  48 ≤ c.toNat && c.toNat ≤ 57

/-- White space that a conversion of `scanf` skips first. -/
def skipSpaces : Stdin → Stdin
  | [] => []
  | c :: rest => if isspace c then skipSpaces rest else c :: rest

/-- The decimal digits a `%d` conversion reads, most significant first. -/
def scanDigits (acc : Nat) : Stdin → Nat × Stdin
  | [] => (acc, [])
  | c :: rest =>
    if isdigit c then scanDigits (10 * acc + (c.toNat - 48)) rest else (acc, c :: rest)

/-- The value the `int` object receives when `%d` has read the decimal number `x`: the
number is converted as by `strtol` into a 64-bit `long`, which saturates at `LONG_MIN` and
`LONG_MAX`, and the `long` is cut to its low 32 bits, read as a signed `int`. -/
def storeInt (x : Int) : Int :=
  let l := max (-(2 ^ 63)) (min x (2 ^ 63 - 1))
  (l + 2 ^ 31) % 2 ^ 32 - 2 ^ 31

/-- Call `scanf("%d", &port)`: `some (port, rest)` when it returns 1, `none` when it
returns 0 or `EOF` (nothing is then stored). -/
def scanfInt (stdin : Stdin) : Option (Int × Stdin) :=
  match skipSpaces stdin with
  | [] => none
  | c :: rest =>
    if c = '-' then
      match rest with
      | d :: _ =>
        if isdigit d then
          let r := scanDigits 0 rest
          some (storeInt (-(r.1 : Int)), r.2)
        else none
      | [] => none
    else if c = '+' then
      match rest with
      | d :: _ =>
        if isdigit d then
          let r := scanDigits 0 rest
          some (storeInt (r.1 : Int), r.2)
        else none
      | [] => none
    else if isdigit c then
      let r := scanDigits 0 (c :: rest)
      some (storeInt (r.1 : Int), r.2)
    else none

/-- The input left unread by a call `scanf("%d", &port)` that does not return 1: the
white space is read, and so is a sign; the character that stopped the conversion is put
back. -/
def scanfUnread (stdin : Stdin) : Stdin :=
  match skipSpaces stdin with
  | [] => []
  | c :: rest => if c = '-' ∨ c = '+' then rest else c :: rest

/-- The input left unread when `GetSite` exits on the port: what follows the number when
one was converted (and refused), what `scanfUnread` gives otherwise. -/
def unreadAfterPort (stdin : Stdin) : Stdin :=
  match scanfInt stdin with
  | some (_, rest) => rest
  | none => scanfUnread stdin

/-- Text of `printf("Please enter the FQDN of the %s: ", type)`. -/
def fqdnPrompt (type : List Char) : List Char :=
  "Please enter the FQDN of the ".toList ++ type ++ ": ".toList

/-- Text of `printf("Please enter the port number of the %s: ", type)`. -/
def portPrompt (type : List Char) : List Char :=
  "Please enter the port number of the ".toList ++ type ++ ": ".toList

/-- Text of the two `printf` calls that echo the inputs, `fqdn` being the local buffer. -/
def echoText (type fqdn : List Char) (port : Int) : List Char :=
  (GRN ++ "FQDN of the ".toList ++ type ++ ": ".toList ++ cstr fqdn ++ "\n".toList)
    ++ ("Port number of the ".toList ++ type ++ ": ".toList ++ fmtd port ++ "\n".toList
      ++ RESET)

/-- Second half of `GetSite` (from the comment `Reads the port number` on), entered
once the FQDN is stored: `fqdn` is the local buffer, `fqdnLen` the length `GetLine`
returned.  Whatever the outcome, the input that `scanf` has read is gone. -/
def GetSite.readPort (type fqdn : List Char) (fqdnLen : Nat) (w : World) : Run Site_t :=
  let w := w.print (portPrompt type)
  match scanfInt w.stdin with
  | some (port, rest) =>
    let w := { w with stdin := rest }
    if port > 0 ∧ port ≤ NUM_PORT then
      let w := PrintNewline w
      let w := w.print (echoText type fqdn port)
      .ret { fqdn := cstr fqdn, fqdnLen := fqdnLen, port := port } (PrintNewline w)
    else .exit EXIT_FAILURE (PrintWarning "GetSite".toList ERR_NO_PORT w)
  | none =>
    .exit EXIT_FAILURE
      (PrintWarning "GetSite".toList ERR_NO_PORT { w with stdin := scanfUnread w.stdin })

/-- Function `GetSite`; `__func__` is `"GetSite"`. -/
def GetSite (fuel : Nat) (type : List Char) (w : World) : Run Site_t :=
  let w := w.print (fqdnPrompt type)
  match GetLine fuel NUM_CHAR w with
  | .hang => .hang
  | .exit s w => .exit s w
  | .ret (fqdn, fqdnLen) w =>
    if fqdnLen ≠ 0 then GetSite.readPort type fqdn fqdnLen w
    else .exit EXIT_FAILURE (PrintWarning "GetSite".toList ERR_NO_FQDN w)

/-! ## Renderer -/

/-- Function `PrintConf`. -/
def PrintConf (src dest : Site_t) (w : World) : World :=
  let w := w.print (GRN ++ "Configuration generated!\n".toList ++ RESET)
  let w := PrintNewline w
  let w := w.print ("upstream ".toList ++ src.fqdn ++ "\n".toList)
  let w := w.print "\x7b\n".toList
  let w := w.print ("    server ".toList ++ dest.fqdn ++ ":".toList ++ fmtd dest.port
    ++ "\n".toList)
  let w := w.print "\x7d\n".toList
  let w := PrintNewline w
  let w := w.print "server\n".toList
  let w := w.print "\x7b\n".toList
  let w := w.print ("    listen *:".toList ++ fmtd src.port ++ ";\n".toList)
  let w := w.print ("    server_name ".toList ++ src.fqdn ++ ";\n".toList)
  let w := PrintNewline w
  let w := w.print "    location /\n".toList
  let w := w.print "    \x7b\n".toList
  let w := w.print ("        proxy_pass https://".toList ++ dest.fqdn ++ ";\n".toList)
  let w := w.print "        proxy_set_header        Host            $host;\n".toList
  let w := w.print "        proxy_set_header        X-Real-IP       $remote_addr;\n".toList
  let w := w.print
    "        proxy_set_header        X-Forwarded-For $proxy_add_x_forwarded_for;\n".toList
  let w := PrintNewline w
  let w := w.print "        proxy_connect_timeout 180;\n".toList
  let w := w.print "        proxy_send_timeout 180;\n".toList
  let w := w.print "        proxy_read_timeout 180;\n".toList
  let w := w.print "    \x7d\n".toList
  w.print "\x7d\n".toList

/-! ## Entry point -/

/-- Function `main`: the exit status of the process and the final state of the
streams (`none`: the process never ends).  Reaching the end of `main` is status 0. -/
def main (fuel : Nat) (stdin : Stdin) : Option (Int × World) :=
  let w : World := { stdin := stdin, stdout := [] }
  let w := w.print "Welcome to NGINX reverse proxy configuration generator\n".toList
  let w := w.print "Written by @nepgeargo\n".toList
  let w := PrintNewline w
  match GetSite fuel SRC w with
  | .hang => none
  | .exit s w1 => some (s, w1)
  | .ret src w1 =>
    match GetSite fuel DEST w1 with
    | .hang => none
    | .exit s w2 => some (s, w2)
    | .ret dest w2 => some (0, PrintConf src dest w2)

/-! ## Specification side -/

/-- The two lines of the overflow diagnostic of `GetLine` for a count `n`, with their
colour escapes. -/
def overflowWarning (n : Nat) : List Char :=
  RED ++ "Warning! Error: overflow in function GetLine\n".toList ++ RESET
    ++ (RED ++ "Number of overflows: ".toList ++ fmtd n ++ "\n".toList ++ RESET)

/-- What `GetLine` writes for an overflow count `n`: the diagnostic when `n` is
positive, nothing when it is 0. -/
def overflowReport (n : Nat) : List Char :=
  if 0 < n then overflowWarning n else []

/-- The failure line of `GetSite` for an error category, with its colour escapes. -/
def failureWarning (errType : List Char) : List Char :=
  RED ++ "Warning! Error: ".toList ++ errType ++ " in function GetSite\n".toList ++ RESET

/-- What `main` writes before it collects the source. -/
def welcomeText : List Char :=
  "Welcome to NGINX reverse proxy configuration generator\nWritten by @nepgeargo\n\n".toList


/-- Lines of a text: the pieces between newline characters (a text that ends in a
newline has an empty last piece). -/
def splitLines : List Char → List (List Char)
  | [] => [[]]
  | c :: rest =>
    if c = '\n' then [] :: splitLines rest
    else
      match splitLines rest with
      | [] => [[c]]
      | l :: ls => (c :: l) :: ls

/-- Text made of the given lines, each followed by a newline. -/
def unlines : List (List Char) → List Char
  | [] => []
  | l :: ls => l ++ '\n' :: unlines ls

/-- The 21 lines of the template of section 4.3 of the specification, with its four
substitution points. -/
def templateLines (src dest : Site_t) : List (List Char) :=
  [ "upstream ".toList ++ src.fqdn,
    "\x7b".toList,
    "    server ".toList ++ dest.fqdn ++ ":".toList ++ fmtd dest.port,
    "\x7d".toList,
    [],
    "server".toList,
    "\x7b".toList,
    "    listen *:".toList ++ fmtd src.port ++ ";".toList,
    "    server_name ".toList ++ src.fqdn ++ ";".toList,
    [],
    "    location /".toList,
    "    \x7b".toList,
    "        proxy_pass https://".toList ++ dest.fqdn ++ ";".toList,
    "        proxy_set_header        Host            $host;".toList,
    "        proxy_set_header        X-Real-IP       $remote_addr;".toList,
    "        proxy_set_header        X-Forwarded-For $proxy_add_x_forwarded_for;".toList,
    "        proxy_connect_timeout 180;".toList,
    "        proxy_send_timeout 180;".toList,
    "        proxy_read_timeout 180;".toList,
    "    \x7d".toList,
    "\x7d".toList ]

/-- The banner `PrintConf` writes before the document: the green announcement line and
the line that holds the colour reset. -/
def confBanner : List Char :=
  GRN ++ "Configuration generated!".toList ++ ['\n'] ++ RESET ++ ['\n']

/-- The document `PrintConf` writes after its banner: the template with a blank line
between the `proxy_set_header` lines and the timeout lines. -/
def docLines (src dest : Site_t) : List (List Char) :=
  (templateLines src dest).take 16 ++ [[]] ++ (templateLines src dest).drop 16

/-- A text without a newline character, that is, a text that fits in one line. -/
abbrev NoNewline (l : List Char) : Prop := ∀ c ∈ l, c ≠ '\n'

/-- The input made of the four fields, each followed by the line ending `term`. -/
def feed (term n1 d1 n2 d2 : List Char) : Stdin :=
  n1 ++ term ++ (d1 ++ term ++ (n2 ++ term ++ (d2 ++ term)))

/-- An endpoint used in the examples: `a.example.com`, port 8080. -/
def exSrc : Site_t := { fqdn := "a.example.com".toList, fqdnLen := 13, port := 8080 }

/-- An endpoint used in the examples: `b.internal`, port 443. -/
def exDest : Site_t := { fqdn := "b.internal".toList, fqdnLen := 10, port := 443 }

/-- The input left unread by the first loop of `GetLine` when it ends on `EOF` before
any alphabetic character: nothing at the end of the stream, what follows the byte 255
when that byte is read as `EOF`. -/
def unreadAfterEOFbyte : Stdin → Stdin
  | [] => []
  | c :: rest => if c = EOFchar then rest else unreadAfterEOFbyte rest

/-- The streams before anything is read or written, with the given input. -/
def World.start (stdin : Stdin) : World := { stdin := stdin, stdout := [] }

/-! ## Line Reader: lemmas -/

theorem isalpha_ne_EOFchar (a : Char) (ha : isalpha a = true) : a ≠ EOFchar := by
  rintro rfl
  revert ha
  decide

theorem skipToAlpha_append (p s : List Char) (hp : ∀ c ∈ p, isalpha c = false)
    (hq : ∀ c ∈ p, c ≠ EOFchar) :
    skipToAlpha (p ++ s) = skipToAlpha s := by
  induction p with
  | nil => rfl
  | cons c p ih =>
    have hc : isalpha c = false := hp c (List.mem_cons_self _ _)
    have hc2 : c ≠ EOFchar := hq c (List.mem_cons_self _ _)
    simp only [List.cons_append, skipToAlpha, hc, hc2, if_false, Bool.false_eq_true]
    exact ih (fun d hd => hp d (List.mem_cons_of_mem _ hd))
      (fun d hd => hq d (List.mem_cons_of_mem _ hd))

theorem skipToAlpha_no_alpha (s : List Char) (hs : ∀ c ∈ s, isalpha c = false) :
    skipToAlpha s = (none, unreadAfterEOFbyte s) := by
  induction s with
  | nil => rfl
  | cons c s ih =>
    have hc : isalpha c = false := hs c (List.mem_cons_self _ _)
    have ih2 := ih (fun d hd => hs d (List.mem_cons_of_mem _ hd))
    by_cases hE : c = EOFchar
    · simp only [skipToAlpha, unreadAfterEOFbyte, hE, if_true]
    · simp only [skipToAlpha, unreadAfterEOFbyte, hE, hc, if_false, Bool.false_eq_true, ih2]

theorem unreadAfterEOFbyte_nil (s : List Char) (hs : ∀ c ∈ s, c ≠ EOFchar) :
    unreadAfterEOFbyte s = [] := by
  induction s with
  | nil => rfl
  | cons c s ih =>
    have hc : c ≠ EOFchar := hs c (List.mem_cons_self _ _)
    simp only [unreadAfterEOFbyte, hc, if_false]
    exact ih (fun d hd => hs d (List.mem_cons_of_mem _ hd))

theorem skipToAlpha_token (p s : List Char) (a : Char) (hp : ∀ c ∈ p, isalpha c = false)
    (hq : ∀ c ∈ p, c ≠ EOFchar) (ha : isalpha a = true) :
    skipToAlpha (p ++ a :: s) = (some a, s) := by
  rw [skipToAlpha_append p _ hp hq]
  simp [skipToAlpha, ha, isalpha_ne_EOFchar a ha]

theorem accumulate_line (maxLen : Nat) (e : Char) (rest : List Char)
    (he : IsNewlineOrReturn e = true) :
    ∀ (t : List Char), (∀ c ∈ t, IsNewlineOrReturn c = false) →
    ∀ (fuel : Nat) (line : List Char) (len numOverflow : Nat), t.length < fuel →
      accumulate maxLen fuel (t ++ e :: rest) line len numOverflow
        = some (line ++ t.take (maxLen - 1 - len), len + min t.length (maxLen - 1 - len),
            numOverflow + (t.length - (maxLen - 1 - len)), rest) := by
  intro t
  induction t with
  | nil =>
    intro _ fuel line len ov hf
    cases fuel with
    | zero => simp at hf
    | succ f => simp [accumulate, he]
  | cons c t ih =>
    intro ht fuel line len ov hf
    have hc : IsNewlineOrReturn c = false := ht c (List.mem_cons_self _ _)
    have ht2 : ∀ d ∈ t, IsNewlineOrReturn d = false :=
      fun d hd => ht d (List.mem_cons_of_mem _ hd)
    cases fuel with
    | zero => simp at hf
    | succ f =>
      have hf2 : t.length < f := by simpa using hf
      simp only [List.cons_append, accumulate, List.headD_cons, List.tail_cons, hc]
      by_cases hl : len < maxLen - 1
      · simp only [hl, if_true, Bool.false_eq_true, if_false]
        rw [ih ht2 f _ _ _ hf2]
        obtain ⟨k, hk⟩ : ∃ k, maxLen - 1 - len = k + 1 := ⟨maxLen - 1 - len - 1, by omega⟩
        have hk2 : maxLen - 1 - (len + 1) = k := by omega
        refine congrArg some (Prod.ext ?_ (Prod.ext ?_ (Prod.ext ?_ rfl)))
        · simp [hk, hk2]
        · simp only [hk, hk2, List.length_cons]
          omega
        · simp only [hk, hk2, List.length_cons]
          omega
      · simp only [hl, if_false, Bool.false_eq_true]
        rw [ih ht2 f _ _ _ hf2]
        have hk : maxLen - 1 - len = 0 := by omega
        refine congrArg some (Prod.ext ?_ (Prod.ext ?_ (Prod.ext ?_ rfl)))
        · simp [hk]
        · simp only [hk, List.length_cons]
          omega
        · simp only [hk, List.length_cons]
          omega

theorem accumulate_hang (maxLen : Nat) :
    ∀ (fuel : Nat) (s line : List Char) (len numOverflow : Nat),
      (∀ c ∈ s, IsNewlineOrReturn c = false) →
      accumulate maxLen fuel s line len numOverflow = none := by
  intro fuel
  induction fuel with
  | zero => intro s line len ov _; rfl
  | succ f ih =>
    intro s line len ov hs
    have hhead : IsNewlineOrReturn (s.headD EOFchar) = false := by
      cases s with
      | nil => decide
      | cons c r => exact hs c (List.mem_cons_self _ _)
    have htail : ∀ c ∈ s.tail, IsNewlineOrReturn c = false :=
      fun c hc => hs c (List.mem_of_mem_tail hc)
    simp only [accumulate, hhead, Bool.false_eq_true, if_false]
    split
    · exact ih _ _ _ _ htail
    · exact ih _ _ _ _ htail

theorem accumulate_some (maxLen : Nat) :
    ∀ (fuel : Nat) (s line : List Char) (len numOverflow : Nat)
      (r : List Char × Nat × Nat × Stdin),
      accumulate maxLen fuel s line len numOverflow = some r →
      ∃ (t : List Char) (e : Char), s = t ++ e :: r.2.2.2 ∧ IsNewlineOrReturn e = true
        ∧ (∀ c ∈ t, IsNewlineOrReturn c = false) ∧ t.length < fuel := by
  intro fuel
  induction fuel with
  | zero => intro s line len ov r h; simp [accumulate] at h
  | succ f ih =>
    intro s line len ov r h
    cases s with
    | nil =>
      have hn := accumulate_hang maxLen (f + 1) [] line len ov (by simp)
      rw [hn] at h
      cases h
    | cons c rest =>
      simp only [accumulate, List.headD_cons, List.tail_cons] at h
      by_cases hc : IsNewlineOrReturn c = true
      · simp only [hc, if_true, Option.some.injEq] at h
        subst h
        exact ⟨[], c, rfl, hc, by simp, by simp⟩
      · have hc2 : IsNewlineOrReturn c = false := by simpa using hc
        simp only [hc2, Bool.false_eq_true, if_false] at h
        have key : ∃ l2 n2 o2, accumulate maxLen f rest l2 n2 o2 = some r := by
          by_cases hl : len < maxLen - 1
          · simp only [hl, if_true] at h
            exact ⟨_, _, _, h⟩
          · simp only [hl, if_false] at h
            exact ⟨_, _, _, h⟩
        obtain ⟨l2, n2, o2, h2⟩ := key
        obtain ⟨t, e, hs, he, ht, hlen⟩ := ih rest l2 n2 o2 r h2
        refine ⟨c :: t, e, by simp [hs], he, ?_, by simpa using hlen⟩
        intro d hd
        rcases List.mem_cons.mp hd with rfl | hd
        · exact hc2
        · exact ht d hd

theorem GetLine_line (maxLen fuel : Nat) (out p t rest : List Char) (a e : Char)
    (hp : ∀ c ∈ p, isalpha c = false) (hq : ∀ c ∈ p, c ≠ EOFchar) (ha : isalpha a = true)
    (ht : ∀ c ∈ t, IsNewlineOrReturn c = false) (he : IsNewlineOrReturn e = true)
    (hfuel : t.length < fuel) :
    GetLine fuel maxLen { stdin := p ++ (a :: t) ++ e :: rest, stdout := out }
      = .ret (a :: t.take (maxLen - 2) ++ [Char.ofNat 0], 1 + min t.length (maxLen - 2))
          (PrintOverflow "GetLine".toList ((t.length - (maxLen - 2) : Nat) : Int)
            { stdin := rest, stdout := out }) := by
  have hs : skipToAlpha (p ++ (a :: t) ++ e :: rest) = (some a, t ++ e :: rest) := by
    have := skipToAlpha_token p (t ++ e :: rest) a hp hq ha
    simpa using this
  have hacc := accumulate_line maxLen e rest he t ht fuel [a] 1 0 hfuel
  have h2 : maxLen - 1 - 1 = maxLen - 2 := by omega
  simp only [GetLine, hs, hacc, h2, Nat.zero_add, List.singleton_append]

theorem GetLine_hang (maxLen fuel : Nat) (out p t : List Char) (a : Char)
    (hp : ∀ c ∈ p, isalpha c = false) (hq : ∀ c ∈ p, c ≠ EOFchar) (ha : isalpha a = true)
    (ht : ∀ c ∈ t, IsNewlineOrReturn c = false) :
    GetLine fuel maxLen { stdin := p ++ a :: t, stdout := out } = .hang := by
  have hs := skipToAlpha_token p t a hp hq ha
  have hacc := accumulate_hang maxLen fuel t [a] 1 0 ht
  simp only [GetLine, hs, hacc]

theorem PrintOverflow_zero (f : List Char) (w : World) : PrintOverflow f 0 w = w := by
  simp [PrintOverflow]

/-! ## Decimal conversions: lemmas -/

theorem digitChar_isdigit (d : Nat) (h : d < 10) :
    isdigit (Nat.digitChar d) = true ∧ (Nat.digitChar d).toNat - 48 = d := by
  interval_cases d <;> decide

theorem toDigitsCore_append (f : Nat) : ∀ (n : Nat) (ds : List Char),
    Nat.toDigitsCore 10 f n ds = Nat.toDigitsCore 10 f n [] ++ ds := by
  induction f with
  | zero => intro n ds; simp [Nat.toDigitsCore]
  | succ f ih =>
    intro n ds
    simp only [Nat.toDigitsCore]
    split
    · simp
    · rw [ih (n / 10) (Nat.digitChar (n % 10) :: ds), ih (n / 10) [Nat.digitChar (n % 10)]]
      simp

theorem toDigitsCore_isdigit (f : Nat) : ∀ (n : Nat) (c : Char),
    c ∈ Nat.toDigitsCore 10 f n [] → isdigit c = true := by
  induction f with
  | zero => intro n c hc; simp [Nat.toDigitsCore] at hc
  | succ f ih =>
    intro n c hc
    have hd := (digitChar_isdigit (n % 10) (Nat.mod_lt _ (by decide))).1
    simp only [Nat.toDigitsCore] at hc
    split at hc
    · simp only [List.mem_singleton] at hc
      rw [hc]; exact hd
    · rw [toDigitsCore_append] at hc
      rcases List.mem_append.mp hc with h | h
      · exact ih _ _ h
      · simp only [List.mem_singleton] at h
        rw [h]; exact hd

theorem toDigitsCore_ne_nil (f n : Nat) : Nat.toDigitsCore 10 (f + 1) n [] ≠ [] := by
  simp only [Nat.toDigitsCore]
  split
  · simp
  · rw [toDigitsCore_append]; simp

theorem scanDigits_toDigitsCore (f : Nat) : ∀ (n : Nat), n < f → ∀ (acc : Nat) (rest : List Char),
    scanDigits acc (Nat.toDigitsCore 10 f n [] ++ rest)
      = scanDigits (acc * 10 ^ (Nat.toDigitsCore 10 f n []).length + n) rest := by
  induction f with
  | zero => intro n hn; omega
  | succ f ih =>
    intro n hn acc rest
    obtain ⟨hd, hv⟩ := digitChar_isdigit (n % 10) (Nat.mod_lt _ (by decide))
    simp only [Nat.toDigitsCore]
    by_cases h0 : n / 10 = 0
    · simp only [h0, if_true, List.singleton_append, scanDigits, hd, hv, List.length_singleton,
        pow_one]
      congr 1
      omega
    · simp only [h0, if_false]
      rw [toDigitsCore_append, List.append_assoc, ih (n / 10) (by omega)]
      simp only [List.singleton_append, scanDigits, hd, hv, if_true, List.length_append,
        List.length_singleton, pow_succ]
      congr 1
      have := Nat.div_add_mod n 10
      nlinarith [this]

theorem scanDigits_stop (acc : Nat) (rest : List Char)
    (h : ∀ c ∈ rest.head?, isdigit c = false) : scanDigits acc rest = (acc, rest) := by
  cases rest with
  | nil => rfl
  | cons c r =>
    have hc : isdigit c = false := h c (by simp)
    simp [scanDigits, hc]

theorem scanDigits_toDigits (p : Nat) (rest : List Char)
    (h : ∀ c ∈ rest.head?, isdigit c = false) :
    scanDigits 0 (Nat.toDigits 10 p ++ rest) = (p, rest) := by
  rw [Nat.toDigits, scanDigits_toDigitsCore (p + 1) p (by omega) 0 rest, scanDigits_stop _ _ h]
  simp

theorem toDigits_isdigit (p : Nat) (c : Char) (hc : c ∈ Nat.toDigits 10 p) :
    isdigit c = true :=
  toDigitsCore_isdigit (p + 1) p c hc

theorem toDigits_cons (p : Nat) :
    ∃ c ds, Nat.toDigits 10 p = c :: ds ∧ isdigit c = true := by
  cases h : Nat.toDigits 10 p with
  | nil => exact absurd h (toDigitsCore_ne_nil p p)
  | cons c ds => exact ⟨c, ds, rfl, toDigits_isdigit p c (by rw [h]; simp)⟩

theorem isdigit_not_special (c : Char) (h : isdigit c = true) :
    isspace c = false ∧ c ≠ '-' ∧ c ≠ '+' ∧ c ≠ '\n' ∧ IsNewlineOrReturn c = false
      ∧ isalpha c = false := by
  simp only [isdigit, Bool.and_eq_true, decide_eq_true_eq] at h
  refine ⟨?_, ?_, ?_, ?_, ?_, ?_⟩
  · simp only [isspace, Bool.or_eq_false_iff, Bool.and_eq_false_iff, decide_eq_false_iff_not]
    omega
  · rintro rfl; revert h; decide
  · rintro rfl; revert h; decide
  · rintro rfl; revert h; decide
  · simp only [IsNewlineOrReturn]
    have h1 : c ≠ '\n' := by rintro rfl; revert h; decide
    have h2 : c ≠ '\r' := by rintro rfl; revert h; decide
    simp [h1, h2]
  · simp only [isalpha, Bool.or_eq_false_iff, Bool.and_eq_false_iff, decide_eq_false_iff_not]
    omega

theorem storeInt_of_int32 (x : Int) (h1 : -2147483648 ≤ x) (h2 : x < 2147483648) :
    storeInt x = x := by
  have e1 : min x (2 ^ 63 - 1) = x := by
    apply min_eq_left
    norm_num
    omega
  have e2 : max (-(2 ^ 63)) x = x := by
    apply max_eq_right
    norm_num
    omega
  simp only [storeInt, e1, e2]
  norm_num
  omega

theorem scanfInt_toDigits (p : Nat) (rest : List Char)
    (h : ∀ c ∈ rest.head?, isdigit c = false) (hp : p < 2147483648) :
    scanfInt (Nat.toDigits 10 p ++ rest) = some ((p : Int), rest) := by
  obtain ⟨c, ds, hcd, hc⟩ := toDigits_cons p
  obtain ⟨hsp, hm, hpl, -, -, -⟩ := isdigit_not_special c hc
  have hsc := scanDigits_toDigits p rest h
  have hst : storeInt (p : Int) = (p : Int) := storeInt_of_int32 _ (by omega) (by omega)
  rw [hcd] at hsc ⊢
  simp only [List.cons_append] at hsc ⊢
  simp only [scanfInt, skipSpaces, hsp, Bool.false_eq_true, if_false, hm, hpl, hc, if_true, hsc,
    hst]

theorem fmtd_natCast (p : Nat) : fmtd (p : Int) = Nat.toDigits 10 p := by
  have h : ¬ ((p : Int) < 0) := by omega
  simp [fmtd, h]

/-! ## C strings: lemmas -/

theorem cstr_terminated (x : List Char) : cstr (x ++ [Char.ofNat 0]) = cstr x := by
  induction x with
  | nil => decide
  | cons c x ih =>
    simp only [cstr, List.cons_append, List.takeWhile_cons] at ih ⊢
    split
    · rw [ih]
    · rfl

theorem cstr_length_le (x : List Char) : (cstr x).length ≤ x.length := by
  induction x with
  | nil => simp [cstr]
  | cons c x ih =>
    simp only [cstr, List.takeWhile_cons] at ih ⊢
    split
    · simp only [List.length_cons]; omega
    · simp

theorem cstr_no_nul (x : List Char) (h : ∀ c ∈ x, c ≠ Char.ofNat 0) : cstr x = x := by
  induction x with
  | nil => simp [cstr]
  | cons c x ih =>
    have hc : c ≠ Char.ofNat 0 := h c (List.mem_cons_self _ _)
    have hx := ih (fun d hd => h d (List.mem_cons_of_mem _ hd))
    simp only [cstr, List.takeWhile_cons] at hx ⊢
    simp [hc, hx]

theorem cstr_cons_alpha (a : Char) (x : List Char) (ha : isalpha a = true) :
    cstr (a :: x) = a :: cstr x := by
  have hc : a ≠ Char.ofNat 0 := by rintro rfl; revert ha; decide
  simp [cstr, List.takeWhile_cons, hc]

/-! ## Lines: lemmas -/

theorem splitLines_ne_nil (s : List Char) : splitLines s ≠ [] := by
  cases s with
  | nil => simp [splitLines]
  | cons c r =>
    simp only [splitLines]
    split
    · simp
    · split <;> simp

theorem splitLines_append_newline (a b : List Char) :
    splitLines (a ++ '\n' :: b) = splitLines a ++ splitLines b := by
  induction a with
  | nil => simp [splitLines]
  | cons c a ih =>
    by_cases hc : c = '\n'
    · simp only [List.cons_append, splitLines, hc, if_true, List.append_eq, ih, List.cons_append]
    · cases hsa : splitLines a with
      | nil => exact absurd hsa (splitLines_ne_nil a)
      | cons l ls =>
        simp only [List.cons_append, splitLines, hc, if_false, List.append_eq, ih, hsa]

theorem splitLines_single (l : List Char) (h : ∀ c ∈ l, c ≠ '\n') : splitLines l = [l] := by
  induction l with
  | nil => rfl
  | cons c l ih =>
    have hc : c ≠ '\n' := h c (List.mem_cons_self _ _)
    simp [splitLines, hc, ih (fun d hd => h d (List.mem_cons_of_mem _ hd))]

theorem splitLines_unlines (L : List (List Char)) (h : ∀ l ∈ L, ∀ c ∈ l, c ≠ '\n') :
    splitLines (unlines L) = L ++ [[]] := by
  induction L with
  | nil => rfl
  | cons l L ih =>
    rw [unlines, splitLines_append_newline, splitLines_single l (h l (List.mem_cons_self _ _)),
      ih (fun m hm => h m (List.mem_cons_of_mem _ hm))]
    rfl

theorem mem_splitLines_of_unlines (x : List Char) (L : List (List Char)) (l : List Char)
    (h : ∀ m ∈ L, ∀ c ∈ m, c ≠ '\n') (hl : l ∈ L) :
    l ∈ splitLines (x ++ '\n' :: unlines L) := by
  rw [splitLines_append_newline, splitLines_unlines L h]
  simp [hl]

/-! ## Input Collector: lemmas -/

theorem GetSite_of_GetLine_ret (fuel : Nat) (type : List Char) (w w2 : World)
    (fqdn : List Char) (fqdnLen : Nat)
    (h : GetLine fuel NUM_CHAR (w.print (fqdnPrompt type)) = .ret (fqdn, fqdnLen) w2)
    (hlen : fqdnLen ≠ 0) :
    GetSite fuel type w = GetSite.readPort type fqdn fqdnLen w2 := by
  simp only [GetSite, h, hlen, ne_eq, not_false_eq_true, if_true]

theorem readPort_accept (type fqdn : List Char) (fqdnLen : Nat) (w : World) (v : Int)
    (rest : Stdin) (hs : scanfInt w.stdin = some (v, rest)) (h0 : 0 < v) (h1 : v ≤ 65536) :
    GetSite.readPort type fqdn fqdnLen w
      = .ret { fqdn := cstr fqdn, fqdnLen := fqdnLen, port := v }
          { stdin := rest,
            stdout := w.stdout ++ portPrompt type ++ ['\n'] ++ echoText type fqdn v ++ ['\n'] } := by
  have hs2 : scanfInt (w.print (portPrompt type)).stdin = some (v, rest) := hs
  have hv : v > 0 ∧ v ≤ NUM_PORT := ⟨h0, h1⟩
  simp only [GetSite.readPort, hs2, hv, and_self, if_true]
  rfl

theorem readPort_reject (type fqdn : List Char) (fqdnLen : Nat) (w : World)
    (h : ¬ ∃ v rest, scanfInt w.stdin = some (v, rest) ∧ 0 < v ∧ v ≤ 65536) :
    GetSite.readPort type fqdn fqdnLen w
      = .exit EXIT_FAILURE
          (PrintWarning "GetSite".toList ERR_NO_PORT
            { stdin := unreadAfterPort w.stdin, stdout := w.stdout ++ portPrompt type }) := by
  unfold GetSite.readPort
  have hst : (w.print (portPrompt type)).stdin = w.stdin := rfl
  simp only [hst, unreadAfterPort]
  cases hs : scanfInt w.stdin with
  | none => rfl
  | some r =>
    obtain ⟨v, rest⟩ := r
    have hv : ¬ (v > 0 ∧ v ≤ NUM_PORT) := fun hv => h ⟨v, rest, hs, hv.1, hv.2⟩
    simp only [hv, if_false]
    rfl

theorem PrintOverflow_pos (n : Nat) (hn : 0 < n) (w : World) :
    PrintOverflow "GetLine".toList (n : Int) w = w.print (overflowWarning n) := by
  have h : (n : Int) > 0 := by exact_mod_cast hn
  simp only [PrintOverflow, h, if_true, PrintWarning, World.print, overflowWarning,
    ERR_OVERFLOW, List.append_assoc]
  rfl

theorem PrintWarning_GetSite (errType : List Char) (w : World) :
    PrintWarning "GetSite".toList errType w = w.print (failureWarning errType) := by
  simp only [PrintWarning, World.print, failureWarning, List.append_assoc]
  rfl

theorem GetLine_fits (maxLen fuel : Nat) (out p t rest : List Char) (a e : Char)
    (hp : ∀ c ∈ p, isalpha c = false) (hq : ∀ c ∈ p, c ≠ EOFchar) (ha : isalpha a = true)
    (ht : ∀ c ∈ t, IsNewlineOrReturn c = false) (hlen : (a :: t).length ≤ maxLen - 1)
    (he : IsNewlineOrReturn e = true) (hfuel : (a :: t).length ≤ fuel) :
    GetLine fuel maxLen { stdin := p ++ (a :: t) ++ e :: rest, stdout := out }
      = .ret ((a :: t) ++ [Char.ofNat 0], (a :: t).length) { stdin := rest, stdout := out } := by
  have hl : t.length ≤ maxLen - 2 := by simp only [List.length_cons] at hlen; omega
  have hf : t.length < fuel := by simp only [List.length_cons] at hfuel; omega
  have hz : t.length - (maxLen - 2) = 0 := by omega
  rw [GetLine_line maxLen fuel out p t rest a e hp hq ha ht he hf, hz]
  simp only [Nat.cast_zero, PrintOverflow_zero, List.take_of_length_le hl,
    Nat.min_eq_left hl, List.length_cons, List.cons_append]
  rw [Nat.add_comm]

theorem GetSite_success (fuel : Nat) (type out p t rest1 rest : List Char) (a e : Char)
    (v : Int) (hp : ∀ c ∈ p, isalpha c = false) (hq : ∀ c ∈ p, c ≠ EOFchar)
    (ha : isalpha a = true)
    (ht : ∀ c ∈ t, IsNewlineOrReturn c = false) (hnul : ∀ c ∈ t, c ≠ Char.ofNat 0)
    (hlen : (a :: t).length ≤ 99) (he : IsNewlineOrReturn e = true)
    (hs : scanfInt rest1 = some (v, rest)) (h0 : 0 < v) (h1 : v ≤ 65536)
    (hfuel : (a :: t).length ≤ fuel) :
    GetSite fuel type { stdin := p ++ (a :: t) ++ e :: rest1, stdout := out }
      = .ret { fqdn := a :: t, fqdnLen := (a :: t).length, port := v }
          { stdin := rest,
            stdout := out ++ fqdnPrompt type ++ portPrompt type ++ ['\n']
              ++ echoText type (a :: t) v ++ ['\n'] } := by
  have hline := GetLine_fits NUM_CHAR fuel (out ++ fqdnPrompt type) p t rest1 a e hp hq ha ht
    (by simpa [NUM_CHAR] using hlen) he hfuel
  have hc : cstr ((a :: t) ++ [Char.ofNat 0]) = a :: t := by
    rw [cstr_terminated, cstr_cons_alpha a t ha, cstr_no_nul t hnul]
  have hc2 : cstr (a :: t) = a :: t := by
    rw [cstr_cons_alpha a t ha, cstr_no_nul t hnul]
  rw [GetSite_of_GetLine_ret fuel type { stdin := p ++ (a :: t) ++ e :: rest1, stdout := out }
      { stdin := rest1, stdout := out ++ fqdnPrompt type } _ _ hline (by simp),
    readPort_accept type _ _ { stdin := rest1, stdout := out ++ fqdnPrompt type } v rest hs
      h0 h1]
  simp only [echoText, hc, hc2]

/-! ## Case analysis of the Line Reader and the Input Collector -/

theorem skipToAlpha_inv (s : List Char) : ∀ (o : Option Char) (rest : List Char),
    skipToAlpha s = (o, rest) →
    o = none
      ∨ ∃ p a, o = some a ∧ s = p ++ a :: rest ∧ (∀ c ∈ p, isalpha c = false)
          ∧ (∀ c ∈ p, c ≠ EOFchar) ∧ isalpha a = true := by
  induction s with
  | nil =>
    intro o rest h
    simp only [skipToAlpha, Prod.mk.injEq] at h
    exact Or.inl h.1.symm
  | cons c s ih =>
    intro o rest h
    by_cases hE : c = EOFchar
    · simp only [skipToAlpha, hE, if_true, Prod.mk.injEq] at h
      exact Or.inl h.1.symm
    · by_cases hc : isalpha c = true
      · simp only [skipToAlpha, hE, hc, if_true, if_false, Prod.mk.injEq] at h
        exact Or.inr ⟨[], c, h.1.symm, by simp [h.2], by simp, by simp, hc⟩
      · have hc2 : isalpha c = false := by simpa using hc
        simp only [skipToAlpha, hE, hc2, Bool.false_eq_true, if_false] at h
        rcases ih o rest h with h1 | ⟨p, a, h1, h2, h3, h4, h5⟩
        · exact Or.inl h1
        · refine Or.inr ⟨c :: p, a, h1, by simp [h2], ?_, ?_, h5⟩
          · intro d hd
            rcases List.mem_cons.mp hd with rfl | hd
            · exact hc2
            · exact h3 d hd
          · intro d hd
            rcases List.mem_cons.mp hd with rfl | hd
            · exact hE
            · exact h4 d hd

theorem PrintOverflow_report (n : Nat) (w : World) :
    PrintOverflow "GetLine".toList (n : Int) w = w.print (overflowReport n) := by
  by_cases hn : 0 < n
  · rw [PrintOverflow_pos n hn, overflowReport, if_pos hn]
  · have h0 : n = 0 := by omega
    subst h0
    simp [PrintOverflow_zero, overflowReport, World.print]

theorem GetLine_cases (fuel maxLen : Nat) (w : World) :
    GetLine fuel maxLen w = .hang
      ∨ ((skipToAlpha w.stdin).1 = none
          ∧ GetLine fuel maxLen w
            = .ret ([], 0) { stdin := (skipToAlpha w.stdin).2, stdout := w.stdout })
      ∨ ∃ p a t e rest, w.stdin = p ++ (a :: t) ++ e :: rest
          ∧ (∀ c ∈ p, isalpha c = false) ∧ isalpha a = true
          ∧ (∀ c ∈ t, IsNewlineOrReturn c = false) ∧ IsNewlineOrReturn e = true
          ∧ GetLine fuel maxLen w
            = .ret (a :: t.take (maxLen - 2) ++ [Char.ofNat 0], 1 + min t.length (maxLen - 2))
                { stdin := rest,
                  stdout := w.stdout ++ overflowReport (t.length - (maxLen - 2)) } := by
  obtain ⟨sin, sout⟩ := w
  rcases hsk : skipToAlpha sin with ⟨o, r⟩
  rcases skipToAlpha_inv sin o r hsk with h1 | ⟨p, a, h1, h2, h3, hq, h4⟩
  · subst h1
    exact Or.inr (Or.inl ⟨by simp only [hsk], by simp only [GetLine, hsk]⟩)
  · subst h1
    cases hacc : accumulate maxLen fuel r [a] 1 0 with
    | none => exact Or.inl (by simp only [GetLine, hsk, hacc])
    | some res =>
      obtain ⟨t, e, hr, he, ht, hf⟩ := accumulate_some maxLen fuel r [a] 1 0 res hacc
      refine Or.inr (Or.inr ⟨p, a, t, e, res.2.2.2, ?_, h3, h4, ht, he, ?_⟩)
      · simp only [h2, hr, List.append_assoc, List.cons_append]
      · have hin : sin = p ++ (a :: t) ++ e :: res.2.2.2 := by
          simp only [h2, hr, List.append_assoc, List.cons_append]
        rw [hin, GetLine_line maxLen fuel sout p t res.2.2.2 a e h3 hq h4 ht he hf,
          PrintOverflow_report]
        rfl

theorem GetSite_cases (fuel : Nat) (type : List Char) (w : World) :
    GetSite fuel type w = .hang
      ∨ ((skipToAlpha w.stdin).1 = none
          ∧ GetSite fuel type w
            = .exit EXIT_FAILURE
                { stdin := (skipToAlpha w.stdin).2,
                  stdout := w.stdout ++ fqdnPrompt type ++ failureWarning ERR_NO_FQDN })
      ∨ ∃ p a t e rest1, w.stdin = p ++ (a :: t) ++ e :: rest1
          ∧ (∀ c ∈ p, isalpha c = false) ∧ isalpha a = true
          ∧ (∀ c ∈ t, IsNewlineOrReturn c = false) ∧ IsNewlineOrReturn e = true
          ∧ (((¬ ∃ v rest, scanfInt rest1 = some (v, rest) ∧ 0 < v ∧ v ≤ 65536)
              ∧ GetSite fuel type w
                = .exit EXIT_FAILURE
                    { stdin := unreadAfterPort rest1,
                      stdout := w.stdout ++ fqdnPrompt type ++ overflowReport (t.length - 98)
                        ++ portPrompt type ++ failureWarning ERR_NO_PORT })
            ∨ ∃ v rest, scanfInt rest1 = some (v, rest) ∧ 0 < v ∧ v ≤ 65536
              ∧ GetSite fuel type w
                = .ret { fqdn := cstr (a :: t.take 98 ++ [Char.ofNat 0]),
                         fqdnLen := 1 + min t.length 98, port := v }
                    { stdin := rest,
                      stdout := w.stdout ++ fqdnPrompt type ++ overflowReport (t.length - 98)
                        ++ portPrompt type ++ ['\n']
                        ++ echoText type (a :: t.take 98 ++ [Char.ofNat 0]) v ++ ['\n'] }) := by
  rcases GetLine_cases fuel NUM_CHAR (w.print (fqdnPrompt type)) with h | ⟨h1, h2⟩
    | ⟨p, a, t, e, rest1, hin, hp, ha, ht, he, hline⟩
  · exact Or.inl (by simp only [GetSite, h])
  · refine Or.inr (Or.inl ⟨h1, ?_⟩)
    simp only [GetSite, h2, ne_eq, not_true_eq_false, if_false, PrintWarning_GetSite]
    rfl
  · refine Or.inr (Or.inr ⟨p, a, t, e, rest1, hin, hp, ha, ht, he, ?_⟩)
    have hne : 1 + min t.length (NUM_CHAR - 2) ≠ 0 := by omega
    have hG := GetSite_of_GetLine_ret fuel type w _ _ _ hline hne
    by_cases hacc : ∃ v rest, scanfInt rest1 = some (v, rest) ∧ 0 < v ∧ v ≤ 65536
    · obtain ⟨v, rest, hs, h0, h1⟩ := hacc
      refine Or.inr ⟨v, rest, hs, h0, h1, ?_⟩
      rw [hG, readPort_accept type _ _ _ v rest hs h0 h1]
      rfl
    · refine Or.inl ⟨hacc, ?_⟩
      rw [hG, readPort_reject type _ _ _ hacc, PrintWarning_GetSite]
      rfl

theorem GetSite_ret_GetLine (fuel : Nat) (type : List Char) (w w2 : World) (site : Site_t)
    (h : GetSite fuel type w = .ret site w2) :
    ∃ buf w1, GetLine fuel NUM_CHAR (w.print (fqdnPrompt type)) = .ret (buf, site.fqdnLen) w1
      ∧ site.fqdn = cstr buf := by
  cases hgl : GetLine fuel NUM_CHAR (w.print (fqdnPrompt type)) with
  | hang =>
    simp only [GetSite, hgl] at h
    cases h
  | exit s w1 =>
    simp only [GetSite, hgl] at h
    cases h
  | ret r w1 =>
    obtain ⟨buf, len⟩ := r
    by_cases hlen : len = 0
    · simp only [GetSite, hgl, hlen, ne_eq, not_true_eq_false, if_false] at h
      cases h
    · rw [GetSite_of_GetLine_ret fuel type w w1 buf len hgl hlen] at h
      by_cases hacc : ∃ v rest, scanfInt w1.stdin = some (v, rest) ∧ 0 < v ∧ v ≤ 65536
      · obtain ⟨v, rest, hs, h0, hv⟩ := hacc
        rw [readPort_accept type buf len w1 v rest hs h0 hv] at h
        cases h
        exact ⟨buf, w1, rfl, rfl⟩
      · rw [readPort_reject type buf len w1 hacc] at h
        cases h

theorem GetSite_exit_status (fuel : Nat) (type : List Char) (w w2 : World) (s : Int)
    (h : GetSite fuel type w = .exit s w2) : s = EXIT_FAILURE := by
  rcases GetSite_cases fuel type w with h1 | ⟨-, h1⟩
    | ⟨p, a, t, e, rest1, -, -, -, -, -, ⟨-, h1⟩ | ⟨v, rest, -, -, -, h1⟩⟩
  all_goals rw [h1] at h
  · cases h
  · cases h; rfl
  · cases h; rfl
  · cases h

theorem cstr_idem (x : List Char) : cstr (cstr x) = cstr x := by
  induction x with
  | nil => rfl
  | cons c x ih =>
    simp only [cstr, List.takeWhile_cons] at ih ⊢
    by_cases hc : (c != Char.ofNat 0) = true
    · simp only [hc, if_true, List.takeWhile_cons, ih]
    · simp only [hc, if_false, List.takeWhile_nil]
      rfl

theorem echoText_cstr (type fqdn : List Char) (port : Int) :
    echoText type (cstr fqdn) port = echoText type fqdn port := by
  simp only [echoText, cstr_idem]

theorem GetSite_exit_stdout (fuel : Nat) (type : List Char) (w w2 : World) (s : Int)
    (h : GetSite fuel type w = .exit s w2) :
    w2.stdout = w.stdout ++ fqdnPrompt type ++ failureWarning ERR_NO_FQDN
      ∨ ∃ n, w2.stdout = w.stdout ++ fqdnPrompt type ++ overflowReport n ++ portPrompt type
          ++ failureWarning ERR_NO_PORT := by
  rcases GetSite_cases fuel type w with h1 | ⟨-, h1⟩
    | ⟨p, a, t, e, rest1, -, -, -, -, -, ⟨-, h1⟩ | ⟨v, rest, -, -, -, h1⟩⟩
  all_goals rw [h1] at h
  · cases h
  · cases h; exact Or.inl rfl
  · cases h; exact Or.inr ⟨_, rfl⟩
  · cases h

theorem GetSite_ret_stdout (fuel : Nat) (type : List Char) (w w2 : World) (site : Site_t)
    (h : GetSite fuel type w = .ret site w2) :
    ∃ n, w2.stdout = w.stdout ++ fqdnPrompt type ++ overflowReport n ++ portPrompt type
      ++ ['\n'] ++ echoText type site.fqdn site.port ++ ['\n'] := by
  rcases GetSite_cases fuel type w with h1 | ⟨-, h1⟩
    | ⟨p, a, t, e, rest1, -, -, -, -, -, ⟨-, h1⟩ | ⟨v, rest, -, -, -, h1⟩⟩
  all_goals rw [h1] at h
  · cases h
  · cases h
  · cases h
  · cases h
    exact ⟨t.length - 98, by simp only [echoText_cstr]⟩

theorem mem_cstr (x : List Char) (c : Char) (h : c ∈ cstr x) : c ∈ x :=
  (List.takeWhile_prefix _).subset h

theorem GetSite_name_NoNewline (fuel : Nat) (type : List Char) (w w2 : World) (site : Site_t)
    (h : GetSite fuel type w = .ret site w2) : NoNewline site.fqdn := by
  rcases GetSite_cases fuel type w with h1 | ⟨-, h1⟩
    | ⟨p, a, t, e, rest1, -, -, ha, ht, -, ⟨-, h1⟩ | ⟨v, rest, -, -, -, h1⟩⟩
  all_goals rw [h1] at h
  · cases h
  · cases h
  · cases h
  · cases h
    intro c hc
    have hm := mem_cstr _ c hc
    simp only [List.cons_append, List.mem_cons, List.mem_append, List.not_mem_nil,
      or_false] at hm
    rcases hm with rfl | hm | rfl
    · rintro rfl; revert ha; decide
    · have := ht c (List.mem_of_mem_take hm)
      rintro rfl
      revert this
      decide
    · decide

theorem GetSite_ret_fqdn_cstr (fuel : Nat) (type : List Char) (w w2 : World) (site : Site_t)
    (h : GetSite fuel type w = .ret site w2) : cstr site.fqdn = site.fqdn := by
  rcases GetSite_cases fuel type w with h1 | ⟨-, h1⟩
    | ⟨p, a, t, e, rest1, -, -, -, -, -, ⟨-, h1⟩ | ⟨v, rest, -, -, -, h1⟩⟩
  all_goals rw [h1] at h
  · cases h
  · cases h
  · cases h
  · cases h
    exact cstr_idem _

theorem accumulate_len_ge (maxLen : Nat) :
    ∀ (fuel : Nat) (s line : List Char) (len numOverflow : Nat)
      (r : List Char × Nat × Nat × Stdin),
      accumulate maxLen fuel s line len numOverflow = some r → len ≤ r.2.1 := by
  intro fuel
  induction fuel with
  | zero => intro s line len ov r h; simp [accumulate] at h
  | succ f ih =>
    intro s line len ov r h
    simp only [accumulate] at h
    split at h
    · cases h; exact Nat.le_refl _
    · split at h
      · have := ih _ _ _ _ _ h
        omega
      · exact ih _ _ _ _ _ h

theorem GetLine_rel (fuel maxLen : Nat) (stdin out1 out2 : List Char) :
    (GetLine fuel maxLen { stdin := stdin, stdout := out1 } = .hang
        ∧ GetLine fuel maxLen { stdin := stdin, stdout := out2 } = .hang)
      ∨ (∃ rest,
          GetLine fuel maxLen { stdin := stdin, stdout := out1 }
              = .ret ([], 0) { stdin := rest, stdout := out1 }
            ∧ GetLine fuel maxLen { stdin := stdin, stdout := out2 }
              = .ret ([], 0) { stdin := rest, stdout := out2 })
      ∨ ∃ buf len rest n, len ≠ 0
          ∧ GetLine fuel maxLen { stdin := stdin, stdout := out1 }
              = .ret (buf, len) { stdin := rest, stdout := out1 ++ overflowReport n }
            ∧ GetLine fuel maxLen { stdin := stdin, stdout := out2 }
              = .ret (buf, len) { stdin := rest, stdout := out2 ++ overflowReport n } := by
  rcases hsk : skipToAlpha stdin with ⟨o, r⟩
  cases o with
  | none =>
    refine Or.inr (Or.inl ⟨r, ?_, ?_⟩) <;> simp only [GetLine, hsk]
  | some a =>
    cases hacc : accumulate maxLen fuel r [a] 1 0 with
    | none =>
      refine Or.inl ⟨?_, ?_⟩ <;> simp only [GetLine, hsk, hacc]
    | some res =>
      have hge := accumulate_len_ge maxLen fuel r [a] 1 0 res hacc
      obtain ⟨line, len, ov, rest⟩ := res
      refine Or.inr (Or.inr ⟨line ++ [Char.ofNat 0], len, rest, ov, ?_, ?_, ?_⟩)
      · simp only at hge
        omega
      · simp only [GetLine, hsk, hacc, PrintOverflow_report, World.print]
      · simp only [GetLine, hsk, hacc, PrintOverflow_report, World.print]

theorem GetSite_rel (fuel : Nat) (t1 t2 stdin out1 out2 : List Char) :
    (GetSite fuel t1 { stdin := stdin, stdout := out1 } = .hang
        ∧ GetSite fuel t2 { stdin := stdin, stdout := out2 } = .hang)
      ∨ (∃ rest,
          GetSite fuel t1 { stdin := stdin, stdout := out1 }
              = .exit EXIT_FAILURE
                  { stdin := rest,
                    stdout := out1 ++ fqdnPrompt t1 ++ failureWarning ERR_NO_FQDN }
            ∧ GetSite fuel t2 { stdin := stdin, stdout := out2 }
              = .exit EXIT_FAILURE
                  { stdin := rest,
                    stdout := out2 ++ fqdnPrompt t2 ++ failureWarning ERR_NO_FQDN })
      ∨ (∃ rest n,
          GetSite fuel t1 { stdin := stdin, stdout := out1 }
              = .exit EXIT_FAILURE
                  { stdin := rest,
                    stdout := out1 ++ fqdnPrompt t1 ++ overflowReport n ++ portPrompt t1
                      ++ failureWarning ERR_NO_PORT }
            ∧ GetSite fuel t2 { stdin := stdin, stdout := out2 }
              = .exit EXIT_FAILURE
                  { stdin := rest,
                    stdout := out2 ++ fqdnPrompt t2 ++ overflowReport n ++ portPrompt t2
                      ++ failureWarning ERR_NO_PORT })
      ∨ ∃ site rest n,
          GetSite fuel t1 { stdin := stdin, stdout := out1 }
              = .ret site
                  { stdin := rest,
                    stdout := out1 ++ fqdnPrompt t1 ++ overflowReport n ++ portPrompt t1
                      ++ ['\n'] ++ echoText t1 site.fqdn site.port ++ ['\n'] }
            ∧ GetSite fuel t2 { stdin := stdin, stdout := out2 }
              = .ret site
                  { stdin := rest,
                    stdout := out2 ++ fqdnPrompt t2 ++ overflowReport n ++ portPrompt t2
                      ++ ['\n'] ++ echoText t2 site.fqdn site.port ++ ['\n'] } := by
  rcases GetLine_rel fuel NUM_CHAR stdin (out1 ++ fqdnPrompt t1) (out2 ++ fqdnPrompt t2)
    with ⟨h1, h2⟩ | ⟨rest1, h1, h2⟩ | ⟨buf, len, rest1, n, hlen, h1, h2⟩
  · refine Or.inl ⟨?_, ?_⟩
    · simp only [GetSite, World.print, h1]
    · simp only [GetSite, World.print, h2]
  · refine Or.inr (Or.inl ⟨rest1, ?_, ?_⟩)
    · simp only [GetSite, World.print, h1, ne_eq, not_true_eq_false, if_false,
        PrintWarning_GetSite]
    · simp only [GetSite, World.print, h2, ne_eq, not_true_eq_false, if_false,
        PrintWarning_GetSite]
  · have g1 := GetSite_of_GetLine_ret fuel t1 { stdin := stdin, stdout := out1 } _ buf len
      h1 hlen
    have g2 := GetSite_of_GetLine_ret fuel t2 { stdin := stdin, stdout := out2 } _ buf len
      h2 hlen
    by_cases hacc : ∃ v rest, scanfInt rest1 = some (v, rest) ∧ 0 < v ∧ v ≤ 65536
    · obtain ⟨v, rest, hs, h0, hv⟩ := hacc
      refine Or.inr (Or.inr (Or.inr ⟨⟨cstr buf, len, v⟩, rest, n, ?_, ?_⟩))
      · rw [g1, readPort_accept t1 buf len _ v rest hs h0 hv]
        simp only [echoText_cstr]
      · rw [g2, readPort_accept t2 buf len _ v rest hs h0 hv]
        simp only [echoText_cstr]
    · refine Or.inr (Or.inr (Or.inl ⟨unreadAfterPort rest1, n, ?_, ?_⟩))
      · rw [g1, readPort_reject t1 buf len _ hacc, PrintWarning_GetSite]
        rfl
      · rw [g2, readPort_reject t2 buf len _ hacc, PrintWarning_GetSite]
        rfl

/-! ## Renderer: lemmas -/

theorem PrintConf_stdout (src dest : Site_t) (w : World) :
    (PrintConf src dest w).stdout
      = w.stdout ++ (GRN ++ "Configuration generated!".toList ++ ['\n'] ++ RESET)
          ++ '\n' :: unlines (docLines src dest) := by
  simp only [PrintConf, World.print, PrintNewline, docLines, templateLines, unlines,
    List.take, List.drop, List.append_assoc, List.cons_append, List.nil_append]
  rfl

theorem PrintConf_stdin (src dest : Site_t) (w : World) :
    (PrintConf src dest w).stdin = w.stdin := by
  simp only [PrintConf, World.print, PrintNewline]

theorem NoNewline_append {a b : List Char} (ha : NoNewline a) (hb : NoNewline b) :
    NoNewline (a ++ b) := by
  intro c hc
  rcases List.mem_append.mp hc with h | h
  · exact ha c h
  · exact hb c h

theorem fmtd_NoNewline (n : Int) : NoNewline (fmtd n) := by
  intro c hc
  unfold fmtd at hc
  split at hc
  · rcases List.mem_cons.mp hc with rfl | h
    · decide
    · exact (isdigit_not_special c (toDigits_isdigit _ c h)).2.2.2.1
  · exact (isdigit_not_special c (toDigits_isdigit _ c hc)).2.2.2.1

theorem docLines_NoNewline (src dest : Site_t) (hs : NoNewline src.fqdn)
    (hd : NoNewline dest.fqdn) : ∀ m ∈ docLines src dest, NoNewline m := by
  have hps := fmtd_NoNewline src.port
  have hpd := fmtd_NoNewline dest.port
  intro m hm
  simp only [docLines, templateLines, List.take, List.drop, List.cons_append,
    List.nil_append, List.mem_cons, List.mem_singleton, List.not_mem_nil, or_false] at hm
  rcases hm with h | h | h | h | h | h | h | h | h | h | h | h | h | h | h | h | h | h
    | h | h | h | h <;> subst h
  all_goals first
    | (intro c hc; revert c; decide)
    | exact NoNewline_append (by decide) hs
    | exact NoNewline_append (NoNewline_append (NoNewline_append (by decide) hd) (by decide)) hpd
    | exact NoNewline_append (NoNewline_append (by decide) hps) (by decide)
    | exact NoNewline_append (NoNewline_append (by decide) hs) (by decide)
    | exact NoNewline_append (NoNewline_append (by decide) hd) (by decide)

/-! ## Entry point: lemmas -/

theorem NoNewline_of_no_terminator (a : Char) (t : List Char) (ha : isalpha a = true)
    (ht : ∀ c ∈ t, IsNewlineOrReturn c = false) : NoNewline (a :: t) := by
  intro c hc
  rcases List.mem_cons.mp hc with rfl | h
  · rintro rfl; revert ha; decide
  · have := ht c h
    rintro rfl
    revert this
    decide



theorem main_eq (fuel : Nat) (stdin : Stdin) :
    main fuel stdin =
      match GetSite fuel SRC { stdin := stdin, stdout := welcomeText } with
      | .hang => none
      | .exit s w1 => some (s, w1)
      | .ret src w1 =>
        match GetSite fuel DEST w1 with
        | .hang => none
        | .exit s w2 => some (s, w2)
        | .ret dest w2 => some (0, PrintConf src dest w2) := by
  have hw : ({ stdin := stdin, stdout := welcomeText } : World)
      = PrintNewline ((({ stdin := stdin, stdout := [] } : World).print
          "Welcome to NGINX reverse proxy configuration generator\n".toList).print
          "Written by @nepgeargo\n".toList) := by
    simp only [PrintNewline, World.print, List.nil_append, List.append_assoc]
    congr 1
  rw [hw]
  rfl

theorem main_success (fuel : Nat) (sep1 tl : List Char) (a1 a2 e1 e2 : Char)
    (t1 t2 : List Char) (p1 p2 : Nat)
    (ha1 : isalpha a1 = true) (ha2 : isalpha a2 = true)
    (ht1 : ∀ c ∈ t1, IsNewlineOrReturn c = false) (ht2 : ∀ c ∈ t2, IsNewlineOrReturn c = false)
    (hn1 : ∀ c ∈ t1, c ≠ Char.ofNat 0) (hn2 : ∀ c ∈ t2, c ≠ Char.ofNat 0)
    (hl1 : (a1 :: t1).length ≤ 99) (hl2 : (a2 :: t2).length ≤ 99)
    (he1 : IsNewlineOrReturn e1 = true) (he2 : IsNewlineOrReturn e2 = true)
    (hsep1 : ∀ c ∈ sep1, isalpha c = false) (hsepq : ∀ c ∈ sep1, c ≠ EOFchar)
    (hd1 : ∀ c ∈ sep1.head?, isdigit c = false)
    (hd2 : ∀ c ∈ tl.head?, isdigit c = false)
    (hp1 : 0 < p1 ∧ p1 ≤ 65536) (hp2 : 0 < p2 ∧ p2 ≤ 65536)
    (hf : 99 ≤ fuel) :
    main fuel ((a1 :: t1) ++ e1 :: (Nat.toDigits 10 p1 ++ (sep1 ++ ((a2 :: t2) ++ e2 ::
        (Nat.toDigits 10 p2 ++ tl)))))
      = some (0, PrintConf { fqdn := a1 :: t1, fqdnLen := (a1 :: t1).length, port := p1 }
          { fqdn := a2 :: t2, fqdnLen := (a2 :: t2).length, port := p2 }
          { stdin := tl,
            stdout := welcomeText
              ++ fqdnPrompt SRC ++ portPrompt SRC ++ ['\n']
              ++ echoText SRC (a1 :: t1) p1 ++ ['\n']
              ++ fqdnPrompt DEST ++ portPrompt DEST ++ ['\n']
              ++ echoText DEST (a2 :: t2) p2 ++ ['\n'] }) := by
  have hr1 : ∀ c ∈ (sep1 ++ ((a2 :: t2) ++ e2 :: (Nat.toDigits 10 p2 ++ tl))).head?,
      isdigit c = false := by
    cases sep1 with
    | nil =>
      intro c hc
      simp only [List.nil_append, List.cons_append, List.head?_cons, Option.mem_def,
        Option.some.injEq] at hc
      subst hc
      by_contra hcon
      have := (isdigit_not_special a2 (by simpa using hcon)).2.2.2.2.2
      rw [ha2] at this
      cases this
    | cons c r => simpa using hd1
  have hs1 := scanfInt_toDigits p1 _ hr1 (by omega)
  have hs2 := scanfInt_toDigits p2 tl hd2 (by omega)
  have g1 := GetSite_success fuel SRC welcomeText [] t1 _ _ a1 e1 (p1 : Int) (by simp) (by simp)
    ha1 ht1
    hn1 hl1 he1 hs1 (by exact_mod_cast hp1.1) (by exact_mod_cast hp1.2) (by omega)
  have g2 := GetSite_success fuel DEST (welcomeText ++ fqdnPrompt SRC ++ portPrompt SRC ++ ['\n']
      ++ echoText SRC (a1 :: t1) p1 ++ ['\n']) sep1 t2 _ _ a2 e2 (p2 : Int) hsep1 hsepq ha2 ht2
    hn2 hl2 he2 hs2 (by exact_mod_cast hp2.1) (by exact_mod_cast hp2.2) (by omega)
  simp only [List.nil_append] at g1
  rw [List.append_assoc] at g2
  rw [main_eq, g1]
  simp only []
  rw [g2]

theorem skipSpaces_append (ws s : List Char) (h : ∀ c ∈ ws, isspace c = true) :
    skipSpaces (ws ++ s) = skipSpaces s := by
  induction ws with
  | nil => rfl
  | cons c ws ih =>
    have hc : isspace c = true := h c (List.mem_cons_self _ _)
    simp only [List.cons_append, skipSpaces, hc, if_true]
    exact ih (fun d hd => h d (List.mem_cons_of_mem _ hd))

theorem scanfInt_skip (ws s : List Char) (h : ∀ c ∈ ws, isspace c = true) :
    scanfInt (ws ++ s) = scanfInt s := by
  simp only [scanfInt, skipSpaces_append ws s h]

theorem GetSite_reads (fuel : Nat) (type out p t rest1 rest : List Char) (a e : Char)
    (v : Int) (hp : ∀ c ∈ p, isalpha c = false) (hq : ∀ c ∈ p, c ≠ EOFchar)
    (ha : isalpha a = true)
    (ht : ∀ c ∈ t, IsNewlineOrReturn c = false) (he : IsNewlineOrReturn e = true)
    (hs : scanfInt rest1 = some (v, rest)) (h0 : 0 < v) (h1 : v ≤ 65536)
    (hfuel : t.length < fuel) :
    GetSite fuel type { stdin := p ++ (a :: t) ++ e :: rest1, stdout := out }
      = .ret { fqdn := cstr (a :: t.take 98 ++ [Char.ofNat 0]),
               fqdnLen := 1 + min t.length 98, port := v }
          { stdin := rest,
            stdout := out ++ fqdnPrompt type ++ overflowReport (t.length - 98)
              ++ portPrompt type ++ ['\n']
              ++ echoText type (a :: t.take 98 ++ [Char.ofNat 0]) v ++ ['\n'] } := by
  have hline := GetLine_line NUM_CHAR fuel (out ++ fqdnPrompt type) p t rest1 a e hp hq ha ht
    he hfuel
  rw [PrintOverflow_report] at hline
  have hne : 1 + min t.length (NUM_CHAR - 2) ≠ 0 := by omega
  rw [GetSite_of_GetLine_ret fuel type { stdin := p ++ (a :: t) ++ e :: rest1, stdout := out }
      _ _ _ hline hne,
    readPort_accept type _ _ _ v rest hs h0 h1]
  rfl

theorem main_run (fuel : Nat) (ws1 sep ws2 tl : List Char) (a1 a2 e1 e2 : Char)
    (t1 t2 : List Char) (p1 p2 : Nat)
    (ha1 : isalpha a1 = true) (ha2 : isalpha a2 = true)
    (ht1 : ∀ c ∈ t1, IsNewlineOrReturn c = false) (ht2 : ∀ c ∈ t2, IsNewlineOrReturn c = false)
    (he1 : IsNewlineOrReturn e1 = true) (he2 : IsNewlineOrReturn e2 = true)
    (hws1 : ∀ c ∈ ws1, isspace c = true) (hws2 : ∀ c ∈ ws2, isspace c = true)
    (hsep : ∀ c ∈ sep, isalpha c = false) (hsepq : ∀ c ∈ sep, c ≠ EOFchar)
    (hd1 : ∀ c ∈ sep.head?, isdigit c = false)
    (hd2 : ∀ c ∈ tl.head?, isdigit c = false)
    (hp1 : 0 < p1 ∧ p1 ≤ 65536) (hp2 : 0 < p2 ∧ p2 ≤ 65536)
    (hf1 : t1.length < fuel) (hf2 : t2.length < fuel) :
    GetSite fuel SRC
        { stdin := (a1 :: t1) ++ e1 :: (ws1 ++ (Nat.toDigits 10 p1 ++ (sep ++ ((a2 :: t2) ++ e2 ::
            (ws2 ++ (Nat.toDigits 10 p2 ++ tl)))))),
          stdout := welcomeText }
        = .ret { fqdn := cstr (a1 :: t1.take 98 ++ [Char.ofNat 0]),
                 fqdnLen := 1 + min t1.length 98, port := p1 }
            { stdin := sep ++ ((a2 :: t2) ++ e2 :: (ws2 ++ (Nat.toDigits 10 p2 ++ tl))),
              stdout := welcomeText ++ fqdnPrompt SRC ++ overflowReport (t1.length - 98)
                ++ portPrompt SRC ++ ['\n']
                ++ echoText SRC (a1 :: t1.take 98 ++ [Char.ofNat 0]) p1 ++ ['\n'] }
      ∧ GetSite fuel DEST
          { stdin := sep ++ ((a2 :: t2) ++ e2 :: (ws2 ++ (Nat.toDigits 10 p2 ++ tl))),
            stdout := welcomeText ++ fqdnPrompt SRC ++ overflowReport (t1.length - 98)
              ++ portPrompt SRC ++ ['\n']
              ++ echoText SRC (a1 :: t1.take 98 ++ [Char.ofNat 0]) p1 ++ ['\n'] }
        = .ret { fqdn := cstr (a2 :: t2.take 98 ++ [Char.ofNat 0]),
                 fqdnLen := 1 + min t2.length 98, port := p2 }
            { stdin := tl,
              stdout := welcomeText ++ fqdnPrompt SRC ++ overflowReport (t1.length - 98)
                ++ portPrompt SRC ++ ['\n']
                ++ echoText SRC (a1 :: t1.take 98 ++ [Char.ofNat 0]) p1 ++ ['\n']
                ++ fqdnPrompt DEST ++ overflowReport (t2.length - 98)
                ++ portPrompt DEST ++ ['\n']
                ++ echoText DEST (a2 :: t2.take 98 ++ [Char.ofNat 0]) p2 ++ ['\n'] }
      ∧ main fuel ((a1 :: t1) ++ e1 :: (ws1 ++ (Nat.toDigits 10 p1 ++ (sep ++ ((a2 :: t2) ++ e2 ::
            (ws2 ++ (Nat.toDigits 10 p2 ++ tl)))))))
        = some (0, PrintConf
            { fqdn := cstr (a1 :: t1.take 98 ++ [Char.ofNat 0]),
              fqdnLen := 1 + min t1.length 98, port := p1 }
            { fqdn := cstr (a2 :: t2.take 98 ++ [Char.ofNat 0]),
              fqdnLen := 1 + min t2.length 98, port := p2 }
            { stdin := tl,
              stdout := welcomeText ++ fqdnPrompt SRC ++ overflowReport (t1.length - 98)
                ++ portPrompt SRC ++ ['\n']
                ++ echoText SRC (a1 :: t1.take 98 ++ [Char.ofNat 0]) p1 ++ ['\n']
                ++ fqdnPrompt DEST ++ overflowReport (t2.length - 98)
                ++ portPrompt DEST ++ ['\n']
                ++ echoText DEST (a2 :: t2.take 98 ++ [Char.ofNat 0]) p2 ++ ['\n'] }) := by
  have hr1 : ∀ c ∈ (sep ++ ((a2 :: t2) ++ e2 :: (ws2 ++ (Nat.toDigits 10 p2 ++ tl)))).head?,
      isdigit c = false := by
    cases sep with
    | nil =>
      intro c hc
      simp only [List.nil_append, List.cons_append, List.head?_cons, Option.mem_def,
        Option.some.injEq] at hc
      subst hc
      by_contra hcon
      have := (isdigit_not_special a2 (by simpa using hcon)).2.2.2.2.2
      rw [ha2] at this
      cases this
    | cons c r => simpa using hd1
  have hs1 : scanfInt (ws1 ++ (Nat.toDigits 10 p1 ++ (sep ++ ((a2 :: t2) ++ e2 ::
      (ws2 ++ (Nat.toDigits 10 p2 ++ tl))))))
      = some ((p1 : Int), sep ++ ((a2 :: t2) ++ e2 :: (ws2 ++ (Nat.toDigits 10 p2 ++ tl)))) := by
    rw [scanfInt_skip ws1 _ hws1, scanfInt_toDigits p1 _ hr1 (by omega)]
  have hs2 : scanfInt (ws2 ++ (Nat.toDigits 10 p2 ++ tl)) = some ((p2 : Int), tl) := by
    rw [scanfInt_skip ws2 _ hws2, scanfInt_toDigits p2 tl hd2 (by omega)]
  have g1 := GetSite_reads fuel SRC welcomeText [] t1 _ _ a1 e1 (p1 : Int) (by simp) (by simp)
    ha1 ht1 he1 hs1 (by exact_mod_cast hp1.1) (by exact_mod_cast hp1.2) hf1
  have g2 := GetSite_reads fuel DEST (welcomeText ++ fqdnPrompt SRC
      ++ overflowReport (t1.length - 98) ++ portPrompt SRC ++ ['\n']
      ++ echoText SRC (a1 :: t1.take 98 ++ [Char.ofNat 0]) p1 ++ ['\n']) sep t2 _ _ a2 e2
    (p2 : Int) hsep hsepq ha2 ht2 he2 hs2 (by exact_mod_cast hp2.1) (by exact_mod_cast hp2.2) hf2
  simp only [List.nil_append] at g1
  rw [List.append_assoc] at g2
  refine ⟨g1, g2, ?_⟩
  rw [main_eq, g1]
  simp only []
  rw [g2]

theorem PrintConf_world (src dest : Site_t) (w : World) :
    PrintConf src dest w
      = { stdin := w.stdin,
          stdout := w.stdout ++ (GRN ++ "Configuration generated!".toList ++ ['\n'] ++ RESET)
            ++ '\n' :: unlines (docLines src dest) } := by
  have h1 := PrintConf_stdout src dest w
  have h2 := PrintConf_stdin src dest w
  cases hw : PrintConf src dest w with
  | mk i o =>
    rw [hw] at h1 h2
    simp only at h1 h2
    rw [h1, h2]

/-! ## Renderer: theorems -/

/-- C1 (counterexample): for the endpoints `a.example.com:8080` and `b.internal:443`,
both valid, the text `PrintConf` writes is not the 21-line template. -/
theorem PrintConf_ne_template :
    (PrintConf exSrc exDest (World.start [])).stdout ≠ unlines (templateLines exSrc exDest) := by
  decide

/-- C1 (amended): `PrintConf` leaves the input alone and appends to standard output
the banner (the green line `Configuration generated!` and the line holding the colour
reset) followed by the template of section 4.3 with one blank line inserted between
the third `proxy_set_header` line and the first timeout line: 24 lines in all, and
nothing else. -/
theorem PrintConf_output (src dest : Site_t) (w : World) :
    PrintConf src dest w =
      { stdin := w.stdin,
        stdout := w.stdout ++ confBanner
          ++ unlines ((templateLines src dest).take 16 ++ [[]]
              ++ (templateLines src dest).drop 16) } := by
  simp only [PrintConf, World.print, PrintNewline, confBanner, templateLines, unlines,
    List.take, List.drop, List.append_assoc, List.cons_append, List.nil_append]
  rfl

/-- C2 (the code at the failing input): for the destination `b.internal:443` the
upstream block `PrintConf` writes has the server line without the semicolon of the
format documented at the head of `main.c`. -/
theorem PrintConf_server_line_no_semicolon :
    "    server b.internal:443".toList
        ∈ splitLines (PrintConf exSrc exDest (World.start [])).stdout
      ∧ "    server b.internal:443;".toList
        ∉ splitLines (PrintConf exSrc exDest (World.start [])).stdout := by
  decide

/-! ## Line Reader: theorems -/

/-- C7 (the code at the failing input): on the input `b.internal` with no line
terminator after it, `GetLine` does not return, whatever the fuel: at the end of the
stream the loop `while (!IsNewlineOrReturn(c = getchar()))` keeps running. -/
theorem GetLine_hangs_at_end_of_stream (fuel : Nat) :
    GetLine fuel NUM_CHAR (World.start "b.internal".toList) = .hang :=
  GetLine_hang NUM_CHAR fuel [] [] ".internal".toList 'b' (by decide) (by decide) (by decide)
    (by decide)

/-! ## Input Collector: theorems -/

/-- C4: once `GetLine` has returned a non-zero length for the FQDN, `GetSite` returns an
Endpoint if and only if `scanf("%d")` converts an integer `v` with `0 < v` and
`v ≤ 65536` (the Endpoint then holds `v`, and the input after the number is left
unread); in every other case it writes the `no port input` warning after the port
prompt and exits with `EXIT_FAILURE`, which is not 0, the input that `scanf` has read
being gone.  After the name `a`, the port texts `1` and `65536` are accepted; `0`,
`65537`, `abc` and the end of the input are rejected.  The integer `v` is the `int`
that `scanf` stores: the number written whenever it is below 2^31, and the low 32 bits
of a larger one (the text `4294967297` is stored as 1 and accepted, and
`-4294901760` as 65536). -/
theorem GetSite_port_accept_iff (fuel : Nat) (type : List Char) (w w2 : World)
    (fqdn : List Char) (fqdnLen : Nat)
    (hline : GetLine fuel NUM_CHAR (w.print (fqdnPrompt type)) = .ret (fqdn, fqdnLen) w2)
    (hlen : fqdnLen ≠ 0) :
    ((∃ site w3, GetSite fuel type w = .ret site w3)
        ↔ ∃ v rest, scanfInt w2.stdin = some (v, rest) ∧ 0 < v ∧ v ≤ 65536)
      ∧ (∀ v rest, scanfInt w2.stdin = some (v, rest) → 0 < v → v ≤ 65536 →
          ∃ w3, GetSite fuel type w
              = .ret { fqdn := cstr fqdn, fqdnLen := fqdnLen, port := v } w3
            ∧ w3.stdin = rest)
      ∧ ((¬ ∃ v rest, scanfInt w2.stdin = some (v, rest) ∧ 0 < v ∧ v ≤ 65536) →
          GetSite fuel type w
            = .exit EXIT_FAILURE
                (PrintWarning "GetSite".toList ERR_NO_PORT
                  { stdin := unreadAfterPort w2.stdin,
                    stdout := w2.stdout ++ portPrompt type }))
      ∧ EXIT_FAILURE ≠ 0
      ∧ (∃ w3, GetSite 5 SRC (World.start "a\n1".toList)
          = .ret { fqdn := ['a'], fqdnLen := 1, port := 1 } w3)
      ∧ (∃ w3, GetSite 5 SRC (World.start "a\n65536".toList)
          = .ret { fqdn := ['a'], fqdnLen := 1, port := 65536 } w3)
      ∧ (∃ w3, GetSite 5 SRC (World.start "a\n0".toList) = .exit EXIT_FAILURE w3)
      ∧ (∃ w3, GetSite 5 SRC (World.start "a\n65537".toList) = .exit EXIT_FAILURE w3)
      ∧ (∃ w3, GetSite 5 SRC (World.start "a\nabc".toList) = .exit EXIT_FAILURE w3)
      ∧ (∃ w3, GetSite 5 SRC (World.start "a\n".toList) = .exit EXIT_FAILURE w3)
      ∧ (∀ (p : Nat) (rest : List Char), p < 2147483648 →
          (∀ c ∈ rest.head?, isdigit c = false) →
          scanfInt (Nat.toDigits 10 p ++ rest) = some ((p : Int), rest))
      ∧ (∃ w3, GetSite 5 SRC (World.start "a\n4294967297".toList)
          = .ret { fqdn := ['a'], fqdnLen := 1, port := 1 } w3)
      ∧ (∃ w3, GetSite 5 SRC (World.start "a\n-4294901760".toList)
          = .ret { fqdn := ['a'], fqdnLen := 1, port := 65536 } w3)
      ∧ GetSite 5 SRC (World.start "a\n 0 80".toList)
          = .exit EXIT_FAILURE
              { stdin := " 80".toList,
                stdout := fqdnPrompt SRC ++ portPrompt SRC ++ failureWarning ERR_NO_PORT } := by
  have hG := GetSite_of_GetLine_ret fuel type w w2 fqdn fqdnLen hline hlen
  refine ⟨⟨?_, ?_⟩, ?_, ?_, by decide, ⟨_, rfl⟩, ⟨_, rfl⟩, ⟨_, rfl⟩, ⟨_, rfl⟩, ⟨_, rfl⟩,
    ⟨_, rfl⟩, fun p rest hp hr => scanfInt_toDigits p rest hr hp, ⟨_, rfl⟩, ⟨_, rfl⟩,
    by decide⟩
  · rintro ⟨site, w3, hret⟩
    by_contra hno
    rw [hG, readPort_reject type fqdn fqdnLen w2 hno] at hret
    cases hret
  · rintro ⟨v, rest, hs, h0, h1⟩
    rw [hG, readPort_accept type fqdn fqdnLen w2 v rest hs h0 h1]
    exact ⟨_, _, rfl⟩
  · intro v rest hs h0 h1
    rw [hG, readPort_accept type fqdn fqdnLen w2 v rest hs h0 h1]
    exact ⟨_, rfl, rfl⟩
  · intro hno
    rw [hG, readPort_reject type fqdn fqdnLen w2 hno]

/-- C4 (witness): the source is read from the input `a.example.com`, newline, `8080`. -/
theorem GetSite_port_accept_iff_witness :
    (∃ site w3, GetSite 20 SRC (World.start "a.example.com\n8080\n".toList) = .ret site w3)
      ↔ ∃ v rest, scanfInt "8080\n".toList = some (v, rest) ∧ 0 < v ∧ v ≤ 65536 :=
  (GetSite_port_accept_iff 20 SRC (World.start "a.example.com\n8080\n".toList)
    { stdin := "8080\n".toList, stdout := fqdnPrompt SRC }
    ("a.example.com".toList ++ [Char.ofNat 0]) 13 (by decide) (by decide)).1

/-- C6: when the input has no alphabetic character at all (it may be empty), `GetLine`
returns length 0 without writing anything, `GetSite` writes the `no FQDN input`
warning after its first prompt and exits with `EXIT_FAILURE`, which is not 0, and the
whole program ends with that status having written only the welcome text, the source
FQDN prompt and the warning: five lines, none from `PrintConf`.  The whole input has
been read, unless it holds the byte 255, after which the loop stops reading. -/
theorem no_alpha_no_fqdn (fuel maxLen : Nat) (type stdin out : List Char)
    (h : ∀ c ∈ stdin, isalpha c = false) :
    GetLine fuel maxLen { stdin := stdin, stdout := out }
        = .ret ([], 0) { stdin := unreadAfterEOFbyte stdin, stdout := out }
      ∧ GetSite fuel type { stdin := stdin, stdout := out }
        = .exit EXIT_FAILURE
            { stdin := unreadAfterEOFbyte stdin,
              stdout := out ++ fqdnPrompt type ++ failureWarning ERR_NO_FQDN }
      ∧ EXIT_FAILURE ≠ 0
      ∧ main fuel stdin
        = some (EXIT_FAILURE,
            { stdin := unreadAfterEOFbyte stdin,
              stdout := welcomeText ++ fqdnPrompt SRC ++ failureWarning ERR_NO_FQDN })
      ∧ ((∀ c ∈ stdin, c ≠ EOFchar) → unreadAfterEOFbyte stdin = [])
      ∧ splitLines (welcomeText ++ fqdnPrompt SRC ++ failureWarning ERR_NO_FQDN)
        = [ "Welcome to NGINX reverse proxy configuration generator".toList,
            "Written by @nepgeargo".toList,
            [],
            "Please enter the FQDN of the source: ".toList ++ RED
              ++ "Warning! Error: no FQDN input in function GetSite".toList,
            RESET ] := by
  have hline : ∀ (m : Nat) (o : List Char),
      GetLine fuel m { stdin := stdin, stdout := o }
        = .ret ([], 0) { stdin := unreadAfterEOFbyte stdin, stdout := o } := by
    intro m o
    simp only [GetLine, skipToAlpha_no_alpha stdin h]
  have hsite : ∀ (ty o : List Char), GetSite fuel ty { stdin := stdin, stdout := o }
      = .exit EXIT_FAILURE
          { stdin := unreadAfterEOFbyte stdin,
            stdout := o ++ fqdnPrompt ty ++ failureWarning ERR_NO_FQDN } := by
    intro ty o
    have := hline NUM_CHAR (o ++ fqdnPrompt ty)
    simp only [GetSite, World.print, this, ne_eq, not_true_eq_false, if_false,
      PrintWarning_GetSite]
  refine ⟨hline maxLen out, hsite type out, by decide, ?_, unreadAfterEOFbyte_nil stdin,
    by decide⟩
  have := hsite SRC welcomeText
  simp only [main, World.print, PrintNewline, List.nil_append, List.append_assoc]
  have hw : "Welcome to NGINX reverse proxy configuration generator\n".toList
      ++ ("Written by @nepgeargo\n".toList ++ "\n".toList) = welcomeText := by decide
  rw [hw, this]
  simp

/-- C6 (witness): the input `12 \n 34` has no alphabetic character. -/
theorem no_alpha_no_fqdn_witness :
    main 0 "12 \n 34".toList
      = some (EXIT_FAILURE,
          { stdin := [],
            stdout := welcomeText ++ fqdnPrompt SRC ++ failureWarning ERR_NO_FQDN }) :=
  (no_alpha_no_fqdn 0 NUM_CHAR SRC "12 \n 34".toList [] (by decide)).2.2.2.1

/-- C10 (counterexample): on the input `a`, NUL, `b`, newline, `80`, newline, `GetSite`
returns an Endpoint whose name is `a` (one character) and whose `fqdnLen` is 3. -/
theorem GetSite_fqdnLen_ne_length :
    ∃ w, GetSite 10 SRC (World.start ['a', Char.ofNat 0, 'b', '\n', '8', '0', '\n'])
        = .ret { fqdn := ['a'], fqdnLen := 3, port := 80 } w
      ∧ (3 : Nat) ≠ ['a'].length :=
  ⟨_, rfl, by decide⟩

/-- C10 (amended): every Endpoint `GetSite` returns has a non-empty name that starts
with a letter, a `fqdnLen` between 1 and 99 that is the number of characters `GetLine`
stored and is at least the length of the name, equal to it whenever the input has no
NUL character, and a port between 1 and 65536; `fqdnLen` is the length `GetLine`
returned and the name is the C string held in the buffer it filled. -/
theorem GetSite_returns_valid (fuel : Nat) (type : List Char) (w w2 : World) (site : Site_t)
    (h : GetSite fuel type w = .ret site w2) :
    (∃ a t, site.fqdn = a :: t ∧ isalpha a = true)
      ∧ 1 ≤ site.fqdnLen ∧ site.fqdnLen ≤ 99
      ∧ site.fqdn.length ≤ site.fqdnLen
      ∧ ((∀ c ∈ w.stdin, c ≠ Char.ofNat 0) → site.fqdn.length = site.fqdnLen)
      ∧ 1 ≤ site.port ∧ site.port ≤ 65536
      ∧ ∃ buf w1,
          GetLine fuel NUM_CHAR (w.print (fqdnPrompt type)) = .ret (buf, site.fqdnLen) w1
            ∧ site.fqdn = cstr buf := by
  have hgl := GetSite_ret_GetLine fuel type w w2 site h
  rcases GetSite_cases fuel type w with h1 | ⟨-, h1⟩
    | ⟨p, a, t, e, rest1, hin, -, ha, -, -, ⟨-, h1⟩ | ⟨v, rest, -, h0, hv, h1⟩⟩
  · rw [h1] at h; cases h
  · rw [h1] at h; cases h
  · rw [h1] at h; cases h
  · rw [h1] at h
    simp only [Run.ret.injEq] at h
    obtain ⟨hsite, -⟩ := h
    subst hsite
    have hname : cstr (a :: List.take 98 t ++ [Char.ofNat 0]) = a :: cstr (List.take 98 t) := by
      rw [List.cons_append, cstr_cons_alpha a _ ha, cstr_terminated]
    have hle := cstr_length_le (List.take 98 t)
    have htake : (List.take 98 t).length = min 98 t.length := List.length_take 98 t
    refine ⟨⟨a, _, hname, ha⟩, by simp only []; omega, by simp only []; omega, ?_, ?_,
      by simp only []; omega, hv, hgl⟩
    · simp only [hname, List.length_cons]
      omega
    · intro hnul
      have hnul2 : ∀ c ∈ List.take 98 t, c ≠ Char.ofNat 0 := by
        intro c hc
        apply hnul c
        rw [hin]
        have : c ∈ t := List.mem_of_mem_take hc
        simp [this]
      simp only [hname, cstr_no_nul _ hnul2, List.length_cons]
      omega

/-- C10 (witness): the source read from the input `a.example.com`, newline, `8080`. -/
theorem GetSite_returns_valid_witness :
    (∃ a t, "a.example.com".toList = a :: t ∧ isalpha a = true)
      ∧ 1 ≤ 13 ∧ 13 ≤ 99
      ∧ "a.example.com".toList.length ≤ 13
      ∧ ((∀ c ∈ "a.example.com\n8080\n".toList, c ≠ Char.ofNat 0)
          → "a.example.com".toList.length = 13)
      ∧ (1 : Int) ≤ 8080 ∧ (8080 : Int) ≤ 65536
      ∧ ∃ buf w1,
          GetLine 20 NUM_CHAR
              ((World.start "a.example.com\n8080\n".toList).print (fqdnPrompt SRC))
            = .ret (buf, 13) w1
            ∧ "a.example.com".toList = cstr buf :=
  GetSite_returns_valid 20 SRC (World.start "a.example.com\n8080\n".toList)
    { stdin := ['\n'],
      stdout := fqdnPrompt SRC ++ portPrompt SRC ++ ['\n']
        ++ echoText SRC "a.example.com".toList 8080 ++ ['\n'] }
    { fqdn := "a.example.com".toList, fqdnLen := 13, port := 8080 } (by decide)

/-! ## Entry point: theorems -/

/-- C3: when the input is the source name, the source port, the destination name and
the destination port, each followed by a newline (names of at most 99 characters that
start with a letter and hold no newline, carriage return or NUL; ports in 1..65536
in decimal), the program ends with status 0 and its standard output has, each as a
complete line, `upstream <source name>`, `    server <destination name>:<destination port>`,
`    listen *:<source port>;`, `    server_name <source name>;`,
`        proxy_pass https://<destination name>;`, the three `proxy_set_header` lines
and the three timeout lines. -/
theorem main_end_to_end (fuel : Nat) (a1 a2 : Char) (t1 t2 : List Char) (p1 p2 : Nat)
    (ha1 : isalpha a1 = true) (ha2 : isalpha a2 = true)
    (ht1 : ∀ c ∈ t1, IsNewlineOrReturn c = false) (ht2 : ∀ c ∈ t2, IsNewlineOrReturn c = false)
    (hn1 : ∀ c ∈ t1, c ≠ Char.ofNat 0) (hn2 : ∀ c ∈ t2, c ≠ Char.ofNat 0)
    (hl1 : (a1 :: t1).length ≤ 99) (hl2 : (a2 :: t2).length ≤ 99)
    (hp1 : 0 < p1 ∧ p1 ≤ 65536) (hp2 : 0 < p2 ∧ p2 ≤ 65536) (hf : 99 ≤ fuel) :
    ∃ w, main fuel ((a1 :: t1) ++ '\n' :: (Nat.toDigits 10 p1 ++ '\n' :: ((a2 :: t2) ++ '\n' ::
          (Nat.toDigits 10 p2 ++ ['\n'])))) = some (0, w)
      ∧ ∀ l ∈ [ "upstream ".toList ++ (a1 :: t1),
                "    server ".toList ++ (a2 :: t2) ++ ":".toList ++ Nat.toDigits 10 p2,
                "    listen *:".toList ++ Nat.toDigits 10 p1 ++ ";".toList,
                "    server_name ".toList ++ (a1 :: t1) ++ ";".toList,
                "        proxy_pass https://".toList ++ (a2 :: t2) ++ ";".toList,
                "        proxy_set_header        Host            $host;".toList,
                "        proxy_set_header        X-Real-IP       $remote_addr;".toList,
                "        proxy_set_header        X-Forwarded-For $proxy_add_x_forwarded_for;".toList,
                "        proxy_connect_timeout 180;".toList,
                "        proxy_send_timeout 180;".toList,
                "        proxy_read_timeout 180;".toList ],
          l ∈ splitLines w.stdout := by
  have hm := main_success fuel ['\n'] ['\n'] a1 a2 '\n' '\n' t1 t2 p1 p2 ha1 ha2 ht1 ht2 hn1 hn2
    hl1 hl2 (by decide) (by decide) (by decide) (by decide) (by decide) (by decide) hp1 hp2 hf
  refine ⟨_, hm, ?_⟩
  intro l hl
  rw [PrintConf_stdout]
  refine mem_splitLines_of_unlines _ _ l
    (docLines_NoNewline { fqdn := a1 :: t1, fqdnLen := (a1 :: t1).length, port := p1 }
      { fqdn := a2 :: t2, fqdnLen := (a2 :: t2).length, port := p2 }
      (NoNewline_of_no_terminator a1 t1 ha1 ht1)
      (NoNewline_of_no_terminator a2 t2 ha2 ht2)) ?_
  simp only [docLines, templateLines, List.take, List.drop, List.cons_append, List.nil_append,
    fmtd_natCast]
  simp only [List.mem_cons, List.mem_singleton, List.not_mem_nil, or_false] at hl ⊢
  rcases hl with h | h | h | h | h | h | h | h | h | h | h <;> subst h <;> simp

/-- C3 (witness): the input `a.example.com`, `8080`, `b.internal`, `443`, one per line. -/
theorem main_end_to_end_witness :
    ∃ w, main 99 "a.example.com\n8080\nb.internal\n443\n".toList = some (0, w)
      ∧ ∀ l ∈ [ "upstream a.example.com".toList,
                "    server b.internal:443".toList,
                "    listen *:8080;".toList,
                "    server_name a.example.com;".toList,
                "        proxy_pass https://b.internal;".toList,
                "        proxy_set_header        Host            $host;".toList,
                "        proxy_set_header        X-Real-IP       $remote_addr;".toList,
                "        proxy_set_header        X-Forwarded-For $proxy_add_x_forwarded_for;".toList,
                "        proxy_connect_timeout 180;".toList,
                "        proxy_send_timeout 180;".toList,
                "        proxy_read_timeout 180;".toList ],
          l ∈ splitLines w.stdout :=
  main_end_to_end 99 'a' 'b' ".example.com".toList ".internal".toList 8080 443
    (by decide) (by decide) (by decide) (by decide) (by decide) (by decide) (by decide)
    (by decide) (by decide) (by decide) (by decide)

/-- C9: whenever the program ends, with the exit status `status` and the streams `w`:
the status is 0 if and only if the source collection returned, then the destination
collection returned, and `w` is what `PrintConf` leaves (it was written last); if the
source collection exits, the program ends there with its non-zero status, having
written only the welcome text, the source prompts and one warning (no destination
prompt, nothing from `PrintConf`, no prompt twice); and if the destination collection
exits, the program ends there with its non-zero status, having written the welcome
text, the source prompts and echo, the destination prompts and one warning. -/
theorem main_linear_sequence (fuel : Nat) (stdin : Stdin) (status : Int) (w : World)
    (h : main fuel stdin = some (status, w)) :
    (status = 0 ↔ ∃ src w1 dest w2,
        GetSite fuel SRC { stdin := stdin, stdout := welcomeText } = .ret src w1
          ∧ GetSite fuel DEST w1 = .ret dest w2 ∧ w = PrintConf src dest w2)
      ∧ (∀ s w1, GetSite fuel SRC { stdin := stdin, stdout := welcomeText } = .exit s w1 →
          status = s ∧ s ≠ 0 ∧ w = w1
            ∧ (w.stdout = welcomeText ++ fqdnPrompt SRC ++ failureWarning ERR_NO_FQDN
              ∨ ∃ n, w.stdout = welcomeText ++ fqdnPrompt SRC ++ overflowReport n
                  ++ portPrompt SRC ++ failureWarning ERR_NO_PORT))
      ∧ (∀ src w1 s w2,
          GetSite fuel SRC { stdin := stdin, stdout := welcomeText } = .ret src w1 →
          GetSite fuel DEST w1 = .exit s w2 →
          status = s ∧ s ≠ 0 ∧ w = w2
            ∧ ∃ n1,
                w.stdout = welcomeText ++ fqdnPrompt SRC ++ overflowReport n1 ++ portPrompt SRC
                    ++ ['\n'] ++ echoText SRC src.fqdn src.port ++ ['\n']
                    ++ fqdnPrompt DEST ++ failureWarning ERR_NO_FQDN
                ∨ ∃ n2,
                  w.stdout = welcomeText ++ fqdnPrompt SRC ++ overflowReport n1
                    ++ portPrompt SRC ++ ['\n'] ++ echoText SRC src.fqdn src.port ++ ['\n']
                    ++ fqdnPrompt DEST ++ overflowReport n2 ++ portPrompt DEST
                    ++ failureWarning ERR_NO_PORT) := by
  have hfail : EXIT_FAILURE ≠ 0 := by decide
  rw [main_eq] at h
  cases hsrc : GetSite fuel SRC { stdin := stdin, stdout := welcomeText } with
  | hang => rw [hsrc] at h; cases h
  | exit s w1 =>
    rw [hsrc] at h
    simp only [Option.some.injEq, Prod.mk.injEq] at h
    obtain ⟨hs, hw⟩ := h
    subst hs hw
    have hst := GetSite_exit_status fuel SRC _ _ _ hsrc
    have hout := GetSite_exit_stdout fuel SRC _ _ _ hsrc
    refine ⟨⟨?_, ?_⟩, ?_, ?_⟩
    · intro h0
      rw [hst] at h0
      exact absurd h0 hfail
    · rintro ⟨src, w1, dest, w2, h1, -, -⟩
      cases h1
    · intro s2 w2 h2
      cases h2
      exact ⟨rfl, by rw [hst]; exact hfail, rfl, hout⟩
    · intro src w2 s2 w3 h2
      cases h2
  | ret src w1 =>
    rw [hsrc] at h
    simp only [] at h
    obtain ⟨n1, hout1⟩ := GetSite_ret_stdout fuel SRC _ _ _ hsrc
    cases hdst : GetSite fuel DEST w1 with
    | hang => rw [hdst] at h; cases h
    | exit s w2 =>
      rw [hdst] at h
      simp only [Option.some.injEq, Prod.mk.injEq] at h
      obtain ⟨hs, hw⟩ := h
      subst hs hw
      have hst := GetSite_exit_status fuel DEST _ _ _ hdst
      have hout := GetSite_exit_stdout fuel DEST _ _ _ hdst
      refine ⟨⟨?_, ?_⟩, ?_, ?_⟩
      · intro h0
        rw [hst] at h0
        exact absurd h0 hfail
      · rintro ⟨src2, w3, dest, w4, h1, h2, -⟩
        cases h1
        rw [hdst] at h2
        cases h2
      · intro s2 w3 h2
        cases h2
      · intro src2 w3 s2 w4 h2 h3
        cases h2
        rw [hdst] at h3
        cases h3
        refine ⟨rfl, by rw [hst]; exact hfail, rfl, n1, ?_⟩
        rcases hout with ho | ⟨n2, ho⟩
        · exact Or.inl (by rw [ho, hout1])
        · exact Or.inr ⟨n2, by rw [ho, hout1]⟩
    | ret dest w2 =>
      rw [hdst] at h
      simp only [Option.some.injEq, Prod.mk.injEq] at h
      obtain ⟨hs, hw⟩ := h
      subst hs hw
      refine ⟨⟨?_, ?_⟩, ?_, ?_⟩
      · intro _
        exact ⟨src, w1, dest, w2, rfl, hdst, rfl⟩
      · intro _
        rfl
      · intro s2 w3 h2
        cases h2
      · intro src2 w3 s2 w4 h2 h3
        cases h2
        rw [hdst] at h3
        cases h3

/-- C9 (witness): the run on the input `a.example.com`, `8080`, `b.internal`, `443`, one
per line, ends with status 0 after both collections and `PrintConf`. -/
theorem main_linear_sequence_witness :
    ∃ src w1 dest w2,
      GetSite 99 SRC { stdin := "a.example.com\n8080\nb.internal\n443\n".toList,
                       stdout := welcomeText } = .ret src w1
        ∧ GetSite 99 DEST w1 = .ret dest w2
        ∧ PrintConf exSrc exDest
            { stdin := ['\n'],
              stdout := welcomeText
                ++ fqdnPrompt SRC ++ portPrompt SRC ++ ['\n']
                ++ echoText SRC "a.example.com".toList 8080 ++ ['\n']
                ++ fqdnPrompt DEST ++ portPrompt DEST ++ ['\n']
                ++ echoText DEST "b.internal".toList 443 ++ ['\n'] }
          = PrintConf src dest w2 :=
  (main_linear_sequence 99 "a.example.com\n8080\nb.internal\n443\n".toList 0 _
    (by decide)).1.mp rfl

/-! ## Line Reader: further theorems -/

/-- C15: whenever `GetLine` returns a non-zero length, the text it stored (the buffer
before the terminating NUL, of the returned length) begins with an alphabetic character
and has no newline and no carriage return; consequently, for two Endpoints returned by
`GetSite`, the text of the document `PrintConf` writes splits into exactly its 22
lines: every line a name is substituted into is still one line. -/
theorem GetLine_stored_text (fuel maxLen : Nat) (w w2 : World) (buf : List Char) (len : Nat)
    (h : GetLine fuel maxLen w = .ret (buf, len) w2) (hlen : len ≠ 0) :
    (∃ a t, buf = (a :: t) ++ [Char.ofNat 0] ∧ len = (a :: t).length ∧ isalpha a = true
        ∧ ∀ c ∈ a :: t, c ≠ '\n' ∧ c ≠ '\r')
      ∧ ∀ (ty1 ty2 : List Char) (u1 u2 v1 v2 : World) (src dest : Site_t),
          GetSite fuel ty1 u1 = .ret src v1 → GetSite fuel ty2 u2 = .ret dest v2 →
          NoNewline ("upstream ".toList ++ src.fqdn)
            ∧ NoNewline ("    server ".toList ++ dest.fqdn ++ ":".toList ++ fmtd dest.port)
            ∧ NoNewline ("    server_name ".toList ++ src.fqdn ++ ";".toList)
            ∧ NoNewline ("        proxy_pass https://".toList ++ dest.fqdn ++ ";".toList)
            ∧ splitLines (unlines (docLines src dest)) = docLines src dest ++ [[]]
            ∧ (docLines src dest).length = 22 := by
  constructor
  · rcases GetLine_cases fuel maxLen w with h1 | ⟨-, h1⟩
      | ⟨p, a, t, e, rest, -, -, ha, ht, -, h1⟩
    · rw [h1] at h; cases h
    · rw [h1] at h; cases h; exact absurd rfl hlen
    · rw [h1] at h
      cases h
      refine ⟨a, t.take (maxLen - 2), rfl, ?_, ha, ?_⟩
      · simp only [List.length_cons, List.length_take]
        omega
      · intro c hc
        have hnt : IsNewlineOrReturn c = false := by
          rcases List.mem_cons.mp hc with rfl | hc
          · revert ha
            simp only [isalpha, IsNewlineOrReturn]
            intro ha
            have h1 : c ≠ '\n' := by rintro rfl; revert ha; decide
            have h2 : c ≠ '\r' := by rintro rfl; revert ha; decide
            simp [h1, h2]
          · exact ht c (List.mem_of_mem_take hc)
        constructor
        · rintro rfl; revert hnt; decide
        · rintro rfl; revert hnt; decide
  · intro ty1 ty2 u1 u2 v1 v2 src dest hs hd
    have ns := GetSite_name_NoNewline fuel ty1 u1 v1 src hs
    have nd := GetSite_name_NoNewline fuel ty2 u2 v2 dest hd
    refine ⟨NoNewline_append (by decide) ns,
      NoNewline_append (NoNewline_append (NoNewline_append (by decide) nd) (by decide))
        (fmtd_NoNewline dest.port),
      NoNewline_append (NoNewline_append (by decide) ns) (by decide),
      NoNewline_append (NoNewline_append (by decide) nd) (by decide),
      splitLines_unlines _ (docLines_NoNewline src dest ns nd), rfl⟩

/-- C15 (witness): the name `b.internal` read from the input ` 1`, newline, `b.internal`,
newline, `443`, newline. -/
theorem GetLine_stored_text_witness :
    ∃ a t, "b.internal".toList ++ [Char.ofNat 0] = (a :: t) ++ [Char.ofNat 0]
      ∧ 10 = (a :: t).length ∧ isalpha a = true ∧ ∀ c ∈ a :: t, c ≠ '\n' ∧ c ≠ '\r' :=
  (GetLine_stored_text 10 100 (World.start " 1\nb.internal\n443\n".toList)
    { stdin := "443\n".toList, stdout := [] } ("b.internal".toList ++ [Char.ofNat 0]) 10
    (by decide) (by decide)).1

/-- C12 (the code at the failing input, and what holds): for every input and every two
role labels the two calls of `GetSite` have the same outcome, the label appearing only
in the prompts and the echo: both never return, or both exit with the `no FQDN input`
warning, or both exit with the `no port input` warning, or both return the same
Endpoint, with the same input left unread each time.  On the input `b.internal`
followed by the end of the stream, the call returns for neither label, whatever the
fuel: it neither fails nor succeeds. -/
theorem GetSite_label_independent (fuel : Nat) (t1 t2 stdin out1 out2 : List Char) :
    ((GetSite fuel t1 { stdin := stdin, stdout := out1 } = .hang
          ∧ GetSite fuel t2 { stdin := stdin, stdout := out2 } = .hang)
        ∨ (∃ rest,
            GetSite fuel t1 { stdin := stdin, stdout := out1 }
                = .exit EXIT_FAILURE
                    { stdin := rest,
                      stdout := out1 ++ fqdnPrompt t1 ++ failureWarning ERR_NO_FQDN }
              ∧ GetSite fuel t2 { stdin := stdin, stdout := out2 }
                = .exit EXIT_FAILURE
                    { stdin := rest,
                      stdout := out2 ++ fqdnPrompt t2 ++ failureWarning ERR_NO_FQDN })
        ∨ (∃ rest n,
            GetSite fuel t1 { stdin := stdin, stdout := out1 }
                = .exit EXIT_FAILURE
                    { stdin := rest,
                      stdout := out1 ++ fqdnPrompt t1 ++ overflowReport n ++ portPrompt t1
                        ++ failureWarning ERR_NO_PORT }
              ∧ GetSite fuel t2 { stdin := stdin, stdout := out2 }
                = .exit EXIT_FAILURE
                    { stdin := rest,
                      stdout := out2 ++ fqdnPrompt t2 ++ overflowReport n ++ portPrompt t2
                        ++ failureWarning ERR_NO_PORT })
        ∨ ∃ site rest n,
            GetSite fuel t1 { stdin := stdin, stdout := out1 }
                = .ret site
                    { stdin := rest,
                      stdout := out1 ++ fqdnPrompt t1 ++ overflowReport n ++ portPrompt t1
                        ++ ['\n'] ++ echoText t1 site.fqdn site.port ++ ['\n'] }
              ∧ GetSite fuel t2 { stdin := stdin, stdout := out2 }
                = .ret site
                    { stdin := rest,
                      stdout := out2 ++ fqdnPrompt t2 ++ overflowReport n ++ portPrompt t2
                        ++ ['\n'] ++ echoText t2 site.fqdn site.port ++ ['\n'] })
      ∧ GetSite fuel t1 { stdin := "b.internal".toList, stdout := out1 } = .hang
      ∧ GetSite fuel t2 { stdin := "b.internal".toList, stdout := out2 } = .hang := by
  have hh : ∀ (ty out : List Char),
      GetSite fuel ty { stdin := "b.internal".toList, stdout := out } = .hang := by
    intro ty out
    have := GetLine_hang NUM_CHAR fuel (out ++ fqdnPrompt ty) [] ".internal".toList 'b'
      (by decide) (by decide) (by decide) (by decide)
    have e : ([] ++ 'b' :: ".internal".toList : List Char) = "b.internal".toList := by decide
    rw [e] at this
    simp only [GetSite, World.print, this]
  exact ⟨GetSite_rel fuel t1 t2 stdin out1 out2, hh t1 out1, hh t2 out2⟩

/-- C13: when `GetSite` returns an Endpoint for the role label `type`, what it has
written is its two prompts (with the overflow diagnostic, if any, between them), a
newline, the confirmation, and a newline; the confirmation is the green colour escape,
`FQDN of the <type>: <name>`, newline, `Port number of the <type>: <port>`, newline and
the colour reset, where `<name>` and `<port>` are the name and the port of the Endpoint
returned (for a label without a newline, these are its lines).  A call that exits has
written its prompts and one warning, and no confirmation. -/
theorem GetSite_confirmation (fuel : Nat) (type : List Char) (w w2 : World) (site : Site_t)
    (h : GetSite fuel type w = .ret site w2) :
    (∃ n, w2.stdout = w.stdout ++ fqdnPrompt type ++ overflowReport n ++ portPrompt type
        ++ ['\n']
        ++ (GRN ++ "FQDN of the ".toList ++ type ++ ": ".toList ++ site.fqdn ++ ['\n']
          ++ "Port number of the ".toList ++ type ++ ": ".toList ++ fmtd site.port ++ ['\n']
          ++ RESET)
        ++ ['\n'])
      ∧ (NoNewline type →
          splitLines (GRN ++ "FQDN of the ".toList ++ type ++ ": ".toList ++ site.fqdn
              ++ ['\n'] ++ "Port number of the ".toList ++ type ++ ": ".toList
              ++ fmtd site.port ++ ['\n'] ++ RESET)
            = [ GRN ++ "FQDN of the ".toList ++ type ++ ": ".toList ++ site.fqdn,
                "Port number of the ".toList ++ type ++ ": ".toList ++ fmtd site.port,
                RESET ])
      ∧ ∀ (u u2 : World) (s : Int), GetSite fuel type u = .exit s u2 →
          u2.stdout = u.stdout ++ fqdnPrompt type ++ failureWarning ERR_NO_FQDN
            ∨ ∃ n, u2.stdout = u.stdout ++ fqdnPrompt type ++ overflowReport n
                ++ portPrompt type ++ failureWarning ERR_NO_PORT := by
  refine ⟨?_, ?_, ?_⟩
  · obtain ⟨n, hn⟩ := GetSite_ret_stdout fuel type w w2 site h
    refine ⟨n, ?_⟩
    rw [hn]
    simp only [echoText, GetSite_ret_fqdn_cstr fuel type w w2 site h, List.append_assoc]
    rfl
  · intro hty
    have hname := GetSite_name_NoNewline fuel type w w2 site h
    have e1 : GRN ++ "FQDN of the ".toList ++ type ++ ": ".toList ++ site.fqdn
          ++ ['\n'] ++ "Port number of the ".toList ++ type ++ ": ".toList
          ++ fmtd site.port ++ ['\n'] ++ RESET
        = (GRN ++ "FQDN of the ".toList ++ type ++ ": ".toList ++ site.fqdn)
          ++ '\n' :: (("Port number of the ".toList ++ type ++ ": ".toList
            ++ fmtd site.port) ++ '\n' :: RESET) := by
      simp only [List.append_assoc, List.cons_append, List.nil_append]
    rw [e1, splitLines_append_newline, splitLines_append_newline,
      splitLines_single _ (NoNewline_append (NoNewline_append (NoNewline_append (by decide)
        hty) (by decide)) hname),
      splitLines_single _ (NoNewline_append (NoNewline_append (NoNewline_append (by decide)
        hty) (by decide)) (fmtd_NoNewline site.port)),
      splitLines_single RESET (by decide)]
    rfl
  · intro u u2 s hu
    exact GetSite_exit_stdout fuel type u u2 s hu

/-- C13 (witness): the source read from the input `a.example.com`, newline, `8080`,
newline. -/
theorem GetSite_confirmation_witness :
    ∃ n, (fqdnPrompt SRC ++ portPrompt SRC ++ ['\n']
          ++ echoText SRC "a.example.com".toList 8080 ++ ['\n'])
        = [] ++ fqdnPrompt SRC ++ overflowReport n ++ portPrompt SRC
          ++ ['\n']
          ++ (GRN ++ "FQDN of the ".toList ++ SRC ++ ": ".toList ++ "a.example.com".toList
            ++ ['\n'] ++ "Port number of the ".toList ++ SRC ++ ": ".toList ++ fmtd 8080
            ++ ['\n'] ++ RESET)
          ++ ['\n'] :=
  (GetSite_confirmation 20 SRC (World.start "a.example.com\n8080\n".toList)
    { stdin := ['\n'],
      stdout := fqdnPrompt SRC ++ portPrompt SRC ++ ['\n']
        ++ echoText SRC "a.example.com".toList 8080 ++ ['\n'] }
    { fqdn := "a.example.com".toList, fqdnLen := 13, port := 8080 } (by decide)).1

/-- C14: when the program ends with a non-zero status, what it wrote last is the
warning of `GetSite`, `Warning! Error: <category> in function GetSite` in the red
colour escape, then a newline and the colour reset, right after a prompt of the source
or of the destination: with the category `no FQDN input` after the FQDN prompt, which
is what `GetSite` does when `GetLine` returned 0, and with the category `no port input`
after the port prompt, which is what it does when the port is refused.  `PrintWarning`
itself appends that one line and the reset, and nothing else. -/
theorem failing_run_last_text (fuel : Nat) (stdin : Stdin) (status : Int) (w : World)
    (h : main fuel stdin = some (status, w)) (hs : status ≠ 0) :
    (∃ pre type, (type = SRC ∨ type = DEST)
        ∧ (w.stdout = pre ++ fqdnPrompt type ++ failureWarning ERR_NO_FQDN
          ∨ ∃ n, w.stdout = pre ++ fqdnPrompt type ++ overflowReport n ++ portPrompt type
              ++ failureWarning ERR_NO_PORT))
      ∧ (∀ (type : List Char) (w0 w1 : World) (buf : List Char),
          GetLine fuel NUM_CHAR (w0.print (fqdnPrompt type)) = .ret (buf, 0) w1 →
          GetSite fuel type w0 = .exit EXIT_FAILURE (w1.print (failureWarning ERR_NO_FQDN)))
      ∧ (∀ (type : List Char) (w0 w1 : World) (buf : List Char) (len : Nat),
          GetLine fuel NUM_CHAR (w0.print (fqdnPrompt type)) = .ret (buf, len) w1 →
          len ≠ 0 →
          (¬ ∃ v rest, scanfInt w1.stdin = some (v, rest) ∧ 0 < v ∧ v ≤ 65536) →
          GetSite fuel type w0
            = .exit EXIT_FAILURE
                { stdin := unreadAfterPort w1.stdin,
                  stdout := w1.stdout ++ portPrompt type ++ failureWarning ERR_NO_PORT })
      ∧ (∀ cat, failureWarning cat
          = RED ++ "Warning! Error: ".toList ++ cat ++ " in function GetSite".toList
            ++ ['\n'] ++ RESET)
      ∧ ∀ (funcName errType : List Char) (w0 : World),
          PrintWarning funcName errType w0
              = { stdin := w0.stdin,
                  stdout := w0.stdout
                    ++ (RED ++ "Warning! Error: ".toList ++ errType ++ " in function ".toList
                      ++ funcName ++ ['\n'] ++ RESET) }
            ∧ (NoNewline funcName → NoNewline errType →
                splitLines (RED ++ "Warning! Error: ".toList ++ errType
                    ++ " in function ".toList ++ funcName ++ ['\n'] ++ RESET)
                  = [ RED ++ "Warning! Error: ".toList ++ errType ++ " in function ".toList
                        ++ funcName,
                      RESET ]) := by
  refine ⟨?_, ?_, ?_, ?_, ?_⟩
  · rw [main_eq] at h
    cases hsrc : GetSite fuel SRC { stdin := stdin, stdout := welcomeText } with
    | hang => rw [hsrc] at h; cases h
    | exit s w1 =>
      rw [hsrc] at h
      simp only [Option.some.injEq, Prod.mk.injEq] at h
      obtain ⟨-, hw⟩ := h
      subst hw
      exact ⟨welcomeText, SRC, Or.inl rfl, GetSite_exit_stdout fuel SRC _ _ _ hsrc⟩
    | ret src w1 =>
      rw [hsrc] at h
      simp only [] at h
      cases hdst : GetSite fuel DEST w1 with
      | hang => rw [hdst] at h; cases h
      | exit s w2 =>
        rw [hdst] at h
        simp only [Option.some.injEq, Prod.mk.injEq] at h
        obtain ⟨-, hw⟩ := h
        subst hw
        exact ⟨w1.stdout, DEST, Or.inr rfl, GetSite_exit_stdout fuel DEST _ _ _ hdst⟩
      | ret dest w2 =>
        rw [hdst] at h
        simp only [Option.some.injEq, Prod.mk.injEq] at h
        exact absurd h.1.symm hs
  · intro type w0 w1 buf hl
    simp only [GetSite, hl, ne_eq, not_true_eq_false, if_false, PrintWarning_GetSite]
  · intro type w0 w1 buf len hl hlen hno
    rw [GetSite_of_GetLine_ret fuel type w0 w1 buf len hl hlen,
      readPort_reject type buf len w1 hno, PrintWarning_GetSite]
    rfl
  · intro cat
    simp only [failureWarning, List.append_assoc]
    rfl
  · intro f e w0
    refine ⟨?_, ?_⟩
    · simp only [PrintWarning, World.print, List.append_assoc]
      rfl
    · intro hf he
      have e1 : RED ++ "Warning! Error: ".toList ++ e ++ " in function ".toList ++ f
            ++ ['\n'] ++ RESET
          = (RED ++ "Warning! Error: ".toList ++ e ++ " in function ".toList ++ f)
            ++ '\n' :: RESET := by
        simp only [List.append_assoc, List.cons_append, List.nil_append]
      rw [e1, splitLines_append_newline,
        splitLines_single _ (NoNewline_append (NoNewline_append (NoNewline_append
          (by decide) he) (by decide)) hf),
        splitLines_single RESET (by decide)]
      rfl

/-- C14 (witness): the run on the input `a.example.com`, newline, `abc`. -/
theorem failing_run_last_text_witness :
    ∃ pre type, (type = SRC ∨ type = DEST)
      ∧ ((welcomeText ++ fqdnPrompt SRC ++ portPrompt SRC ++ failureWarning ERR_NO_PORT)
          = pre ++ fqdnPrompt type ++ failureWarning ERR_NO_FQDN
        ∨ ∃ n, (welcomeText ++ fqdnPrompt SRC ++ portPrompt SRC ++ failureWarning ERR_NO_PORT)
            = pre ++ fqdnPrompt type ++ overflowReport n ++ portPrompt type
              ++ failureWarning ERR_NO_PORT) :=
  (failing_run_last_text 20 "a.example.com\nabc".toList EXIT_FAILURE
    { stdin := "abc".toList,
      stdout := welcomeText ++ fqdnPrompt SRC ++ portPrompt SRC ++ failureWarning ERR_NO_PORT }
    (by decide) (by decide)).1

/-! ## Entry point: further theorems -/

/-- C17: for two names that start with a letter and hold no line terminator and two
ports in 1..65536 written in decimal, feeding the program the four fields each
followed by a newline, each followed by a carriage return, or each followed by a
carriage return and a newline gives the same source Endpoint, the same destination
Endpoint, the exit status 0 and the same standard output; only the last line ending
is left unread. -/
theorem line_ending_independent (fuel : Nat) (a1 a2 : Char) (t1 t2 : List Char) (p1 p2 : Nat)
    (ha1 : isalpha a1 = true) (ha2 : isalpha a2 = true)
    (ht1 : ∀ c ∈ t1, IsNewlineOrReturn c = false) (ht2 : ∀ c ∈ t2, IsNewlineOrReturn c = false)
    (hp1 : 0 < p1 ∧ p1 ≤ 65536) (hp2 : 0 < p2 ∧ p2 ≤ 65536)
    (hf1 : t1.length < fuel) (hf2 : t2.length < fuel) :
    ∃ (src dest : Site_t) (out : List Char),
      ∀ term ∈ [['\n'], ['\r'], ['\r', '\n']],
        ∃ w1 w2,
          GetSite fuel SRC
              { stdin := feed term (a1 :: t1) (Nat.toDigits 10 p1) (a2 :: t2)
                  (Nat.toDigits 10 p2),
                stdout := welcomeText } = .ret src w1
            ∧ GetSite fuel DEST w1 = .ret dest w2
            ∧ main fuel (feed term (a1 :: t1) (Nat.toDigits 10 p1) (a2 :: t2)
                (Nat.toDigits 10 p2))
              = some (0, { stdin := term, stdout := out }) := by
  refine ⟨{ fqdn := cstr (a1 :: t1.take 98 ++ [Char.ofNat 0]),
            fqdnLen := 1 + min t1.length 98, port := p1 },
          { fqdn := cstr (a2 :: t2.take 98 ++ [Char.ofNat 0]),
            fqdnLen := 1 + min t2.length 98, port := p2 },
          welcomeText ++ fqdnPrompt SRC ++ overflowReport (t1.length - 98)
            ++ portPrompt SRC ++ ['\n']
            ++ echoText SRC (a1 :: t1.take 98 ++ [Char.ofNat 0]) p1 ++ ['\n']
            ++ fqdnPrompt DEST ++ overflowReport (t2.length - 98)
            ++ portPrompt DEST ++ ['\n']
            ++ echoText DEST (a2 :: t2.take 98 ++ [Char.ofNat 0]) p2 ++ ['\n']
            ++ (GRN ++ "Configuration generated!".toList ++ ['\n'] ++ RESET)
            ++ '\n' :: unlines (docLines
                { fqdn := cstr (a1 :: t1.take 98 ++ [Char.ofNat 0]),
                  fqdnLen := 1 + min t1.length 98, port := p1 }
                { fqdn := cstr (a2 :: t2.take 98 ++ [Char.ofNat 0]),
                  fqdnLen := 1 + min t2.length 98, port := p2 }), ?_⟩
  intro term hterm
  simp only [List.mem_cons, List.mem_singleton, List.not_mem_nil, or_false] at hterm
  rcases hterm with rfl | rfl | rfl
  · obtain ⟨g1, g2, g3⟩ := main_run fuel [] ['\n'] [] ['\n'] a1 a2 '\n' '\n' t1 t2 p1 p2
      ha1 ha2 ht1 ht2 (by decide) (by decide) (by decide) (by decide) (by decide) (by decide)
      (by decide) (by decide) hp1 hp2 hf1 hf2
    rw [PrintConf_world] at g3
    simp only [feed, List.append_assoc, List.cons_append, List.nil_append] at g1 g2 g3 ⊢
    exact ⟨_, _, g1, g2, g3⟩
  · obtain ⟨g1, g2, g3⟩ := main_run fuel [] ['\r'] [] ['\r'] a1 a2 '\r' '\r' t1 t2 p1 p2
      ha1 ha2 ht1 ht2 (by decide) (by decide) (by decide) (by decide) (by decide) (by decide)
      (by decide) (by decide) hp1 hp2 hf1 hf2
    rw [PrintConf_world] at g3
    simp only [feed, List.append_assoc, List.cons_append, List.nil_append] at g1 g2 g3 ⊢
    exact ⟨_, _, g1, g2, g3⟩
  · obtain ⟨g1, g2, g3⟩ := main_run fuel ['\n'] ['\r', '\n'] ['\n'] ['\r', '\n'] a1 a2 '\r' '\r'
      t1 t2 p1 p2 ha1 ha2 ht1 ht2 (by decide) (by decide) (by decide) (by decide) (by decide)
      (by decide) (by decide) (by decide) hp1 hp2 hf1 hf2
    rw [PrintConf_world] at g3
    simp only [feed, List.append_assoc, List.cons_append, List.nil_append] at g1 g2 g3 ⊢
    exact ⟨_, _, g1, g2, g3⟩

/-- C17 (witness): the fields `a.example.com`, `8080`, `b.internal` and `443`. -/
theorem line_ending_independent_witness :
    ∃ (src dest : Site_t) (out : List Char),
      ∀ term ∈ [['\n'], ['\r'], ['\r', '\n']],
        ∃ w1 w2,
          GetSite 20 SRC
              { stdin := feed term ('a' :: ".example.com".toList) (Nat.toDigits 10 8080)
                  ('b' :: ".internal".toList) (Nat.toDigits 10 443),
                stdout := welcomeText } = .ret src w1
            ∧ GetSite 20 DEST w1 = .ret dest w2
            ∧ main 20 (feed term ('a' :: ".example.com".toList) (Nat.toDigits 10 8080)
                ('b' :: ".internal".toList) (Nat.toDigits 10 443))
              = some (0, { stdin := term, stdout := out }) :=
  line_ending_independent 20 'a' 'b' ".example.com".toList ".internal".toList 8080 443
    (by decide) (by decide) (by decide) (by decide) (by decide) (by decide) (by decide)
    (by decide)

/-! ## Diagnostics: theorems -/

/-- C11 (counterexample): for the count -1, which is not zero, `PrintOverflow` writes
nothing. -/
theorem PrintOverflow_negative_silent :
    (-1 : Int) ≠ 0
      ∧ PrintOverflow "GetLine".toList (-1) (World.start []) = World.start [] := by
  decide

/-- C11 (amended): for every label and every integer count, `PrintOverflow` writes
nothing when the count is zero or negative; when the count is positive it appends the
warning line of the `overflow` category for that label and the line
`Number of overflows: <count>`, each in the red colour escape and followed by the
reset, where `<count>` is the decimal text of the count (reading it back gives the
count); for a label without a newline these are the lines of what is written. -/
theorem PrintOverflow_spec (funcName : List Char) (num : Int) (w : World) :
    (num ≤ 0 → PrintOverflow funcName num w = w)
      ∧ (0 < num →
          PrintOverflow funcName num w
              = { stdin := w.stdin,
                  stdout := w.stdout
                    ++ (RED ++ "Warning! Error: overflow in function ".toList ++ funcName
                      ++ ['\n'] ++ RESET)
                    ++ (RED ++ "Number of overflows: ".toList ++ fmtd num ++ ['\n']
                      ++ RESET) }
            ∧ scanDigits 0 (fmtd num) = (num.toNat, [])
            ∧ (NoNewline funcName →
                splitLines ((RED ++ "Warning! Error: overflow in function ".toList
                    ++ funcName ++ ['\n'] ++ RESET)
                  ++ (RED ++ "Number of overflows: ".toList ++ fmtd num ++ ['\n'] ++ RESET))
                = [ RED ++ "Warning! Error: overflow in function ".toList ++ funcName,
                    RESET ++ RED ++ "Number of overflows: ".toList ++ fmtd num,
                    RESET ])) := by
  constructor
  · intro h
    have h2 : ¬ num > 0 := by omega
    simp only [PrintOverflow, h2, if_false]
  · intro h
    have h2 : num > 0 := h
    refine ⟨?_, ?_, ?_⟩
    · simp only [PrintOverflow, h2, if_true, PrintWarning, World.print, ERR_OVERFLOW,
        List.append_assoc]
      rfl
    · have hn : ¬ num < 0 := by omega
      have := scanDigits_toDigits num.toNat [] (by simp)
      simpa [fmtd, hn] using this
    · intro hf
      have e1 : (RED ++ "Warning! Error: overflow in function ".toList ++ funcName
            ++ ['\n'] ++ RESET)
            ++ (RED ++ "Number of overflows: ".toList ++ fmtd num ++ ['\n'] ++ RESET)
          = (RED ++ "Warning! Error: overflow in function ".toList ++ funcName)
            ++ '\n' :: ((RESET ++ RED ++ "Number of overflows: ".toList ++ fmtd num)
              ++ '\n' :: RESET) := by
        simp only [List.append_assoc, List.cons_append, List.nil_append]
      rw [e1, splitLines_append_newline, splitLines_append_newline,
        splitLines_single _ (NoNewline_append (by decide) hf),
        splitLines_single _ (NoNewline_append (by decide) (fmtd_NoNewline num)),
        splitLines_single RESET (by decide)]
      rfl

/-- C11 (witness): the count 3 for the label `GetLine`. -/
theorem PrintOverflow_spec_witness :
    PrintOverflow "GetLine".toList 3 (World.start [])
        = { stdin := [],
            stdout := [] ++ (RED ++ "Warning! Error: overflow in function ".toList
                ++ "GetLine".toList ++ ['\n'] ++ RESET)
              ++ (RED ++ "Number of overflows: ".toList ++ fmtd 3 ++ ['\n'] ++ RESET) } :=
  ((PrintOverflow_spec "GetLine".toList 3 (World.start [])).2 (by decide)).1

end NginxConf
